import Mathlib

/-!
Verification of the merge-conflict resolution subsystem of the
`autogit_remote` repository (`src/tools/merge_conflict_tool.py`).

The Python code is shallowly embedded: file contents are `String`s, line
sequences are `List String`, the external text-generation oracle and the
CPython `compile` builtin are parameters (`Env`), and the working tree /
index are an explicit `RepoState`.  Python string primitives used by the
source (`split('\n')`, `'\n'.join`, `startswith`, `strip`, `lower`,
`replace`, `os.path.splitext`) are modelled as executable functions on
`List Char` data.
-/

namespace Autogit

/-! ## Python string primitives -/

/-- Python whitespace characters stripped by `str.strip()` (ASCII subset). -/
def pyIsSpace (c : Char) : Bool :=
  c = ' ' || c = '\t' || c = '\n' || c = '\r' || c = '\x0b' || c = '\x0c'

/-- Python `s.strip()`: remove leading and trailing whitespace. -/
def pyStrip (s : String) : String :=
  ⟨((s.data.dropWhile pyIsSpace).reverse.dropWhile pyIsSpace).reverse⟩

/-- Python `s.lower()` (ASCII letters). -/
def pyLower (s : String) : String :=
  ⟨s.data.map Char.toLower⟩

/-- Python `s.startswith(pre)`. -/
def pyStartsWith (s pre : String) : Bool :=
  pre.data.isPrefixOf s.data

/-- Core of Python `s.replace(pat, rep)`: scan left to right, replacing
non-overlapping occurrences of `pat`.  The fuel argument (the length of the
scanned list, so never exhausted) makes the recursion structural.  The
source only calls this with the non-empty patterns `'<<<<<<< '` and
`'>>>>>>> '`; an empty pattern is left untouched here. -/
def pyReplaceAux (pat rep : List Char) : Nat → List Char → List Char
  | _, [] => []
  | 0, l => l
  | fuel + 1, c :: rest =>
    if pat.isPrefixOf (c :: rest) ∧ pat ≠ [] then
      rep ++ pyReplaceAux pat rep fuel (rest.drop (pat.length - 1))
    else
      c :: pyReplaceAux pat rep fuel rest

/-- Python `s.replace(pat, rep)`. -/
def pyReplace (s pat rep : String) : String :=
  ⟨pyReplaceAux pat.data rep.data s.data.length s.data⟩

/-- Split a character sequence at every newline (Python `s.split('\n')`
at the character level).  Always returns at least one (possibly empty)
segment, like Python. -/
def splitNlChars : List Char → List (List Char)
  | [] => [[]]
  | c :: rest =>
    let r := splitNlChars rest
    if c = '\n' then [] :: r
    else
      match r with
      | [] => [[c]]
      | h :: t => (c :: h) :: t

/-- Join line contents with newlines (Python `'\n'.join` at the character
level). -/
def joinNlChars : List (List Char) → List Char
  | [] => []
  | l :: ls =>
    match ls with
    | [] => l
    | _ :: _ => l ++ '\n' :: joinNlChars ls

/-- Python `content.split('\n')`. -/
def pySplitNl (s : String) : List String :=
  (splitNlChars s.data).map (fun l => ⟨l⟩)

/-- Python `'\n'.join(lines)`. -/
def pyJoinNl (ls : List String) : String :=
  ⟨joinNlChars (ls.map String.data)⟩

/-- Last index of character `c` in `l`, or `none` (Python `rfind` result). -/
def lastIdx (c : Char) (l : List Char) : Option Nat :=
  match l with
  | [] => none
  | x :: rest =>
    match lastIdx c rest with
    | some i => some (i + 1)
    | none => if x = c then some 0 else none

/-- The extension component `os.path.splitext(p)[1]` (posix rules): the part
of the last path component from its last dot on, unless every character of
the component before that dot is a dot. -/
def splitextExt (p : String) : String :=
  let cs := p.data
  let sepIndex : Nat := match lastIdx '/' cs with | some i => i + 1 | none => 0
  match lastIdx '.' cs with
  | none => ""
  | some dotIndex =>
    if sepIndex ≤ dotIndex ∧
        ((cs.drop sepIndex).take (dotIndex - sepIndex)).any (fun c => c ≠ '.') then
      ⟨cs.drop dotIndex⟩
    else ""

/-- Python slice `l[a:b]` for non-negative indices. -/
def pySlice (l : List String) (a b : Nat) : List String :=
  (l.drop a).take (b - a)

/-! ## Data model (`ResolutionStrategy`, `ConflictRegion`) -/

/-- `ResolutionStrategy` enum of the source. -/
inductive ResolutionStrategy where
  | interactive
  | current
  | incoming
  | both
deriving DecidableEq

/-- `ConflictRegion` dataclass: one parsed conflict block. -/
structure ConflictRegion where
  file_path : String
  start_line : Nat
  end_line : Nat
  current_branch : String
  incoming_branch : String
  current_content : List String
  incoming_content : List String
  base_content : List String
deriving DecidableEq

/-- `ConflictRegion.current_text` property. -/
def ConflictRegion.current_text (c : ConflictRegion) : String :=
  pyJoinNl c.current_content

/-- `ConflictRegion.incoming_text` property. -/
def ConflictRegion.incoming_text (c : ConflictRegion) : String :=
  pyJoinNl c.incoming_content

/-- `ConflictRegion.base_text` property. -/
def ConflictRegion.base_text (c : ConflictRegion) : String :=
  pyJoinNl c.base_content

/-! ## External collaborators

The text-generation oracle (two LLM pipelines), the CPython `compile`
builtin consulted by `SyntaxValidator.validate_python`, and the
`git add` subprocess are modelled as parameters. -/

/-- Outcome of CPython `compile(code, '<string>', 'exec')`:
succeeds, raises `SyntaxError` (with its 1-based `lineno` and `msg`),
or raises some other exception. -/
inductive PyCompileResult where
  | ok
  | syntaxErr (lineno : Nat) (msg : String)
  | otherErr (msg : String)
deriving DecidableEq

/-- External collaborators of the conflict-resolution subsystem.
`Except.error` models a raised exception in an oracle call. -/
structure Env where
  analyzerLlm : String → Except String String
  mergerLlm : String → Except String String
  pyCompile : String → PyCompileResult
  gitAddOk : String → Bool

/-- `GitOperations.stage_file`: run `git add`, report success. -/
def GitOperations.stage_file (env : Env) (file_path : String) : Bool :=
  env.gitAddOk file_path

/-! ## `ConflictParser` -/

/-- One scanning loop of `_parse_single_conflict`: collect lines from index
`i` until a line satisfying `stop` (or the end of `lines`).  The loop index
after the scan is `i` plus the number of collected lines. -/
def takeUntil (stop : String → Bool) (lines : List String) (i : Nat) : List String :=
  (lines.drop i).takeWhile (fun l => !stop l)

/-- `ConflictParser._parse_single_conflict`: parse one conflict region whose
begin marker sits at index `start`.  The indices `i1`–`i4` are the values of
the Python loop variable `i` after each scanning phase. -/
def ConflictParser.parse_single_conflict (lines : List String) (start : Nat)
    (file_path : String) : ConflictRegion :=
  let current_branch := pyStrip (pyReplace (lines.getD start "") "<<<<<<< " "")
  -- current branch content: until '=======' or '|||||||'
  let current_content :=
    takeUntil (fun l => pyStartsWith l "=======" || pyStartsWith l "|||||||") lines (start + 1)
  let i1 := start + 1 + current_content.length
  -- diff3 style base section
  let base_content :=
    if i1 < lines.length ∧ pyStartsWith (lines.getD i1 "") "|||||||" then
      takeUntil (fun l => pyStartsWith l "=======") lines (i1 + 1)
    else []
  let i2 :=
    if i1 < lines.length ∧ pyStartsWith (lines.getD i1 "") "|||||||" then
      i1 + 1 + base_content.length
    else i1
  -- skip separator
  let i3 := if i2 < lines.length ∧ pyStartsWith (lines.getD i2 "") "=======" then i2 + 1 else i2
  -- incoming content: until '>>>>>>>'
  let incoming_content := takeUntil (fun l => pyStartsWith l ">>>>>>>") lines i3
  let i4 := i3 + incoming_content.length
  let incoming_branch :=
    if i4 < lines.length ∧ pyStartsWith (lines.getD i4 "") ">>>>>>>" then
      pyStrip (pyReplace (lines.getD i4 "") ">>>>>>> " "")
    else "MERGE_HEAD"
  { file_path := file_path
    start_line := start
    end_line := i4
    current_branch := current_branch
    incoming_branch := incoming_branch
    current_content := current_content
    incoming_content := incoming_content
    base_content := base_content }

/-- The scanning loop of `ConflictParser._parse_content`: walk the lines;
at each line starting with `'<<<<<<<'` parse a conflict and resume one past
its `end_line`; otherwise advance one line.  The loop index strictly
increases at every step, so a fuel of `lines.length - i` (as supplied by
`parse_content`) is never exhausted. -/
def ConflictParser.parseLoop (fuel : Nat) (lines : List String) (i : Nat)
    (file_path : String) : List ConflictRegion :=
  match fuel with
  | 0 => []
  | fuel + 1 =>
    if i < lines.length then
      if pyStartsWith (lines.getD i "") "<<<<<<<" then
        let c := ConflictParser.parse_single_conflict lines i file_path
        c :: ConflictParser.parseLoop fuel lines (c.end_line + 1) file_path
      else
        ConflictParser.parseLoop fuel lines (i + 1) file_path
    else []

/-- `ConflictParser._parse_content`: split the file content into lines and
scan them for conflict regions. -/
def ConflictParser.parse_content (content : String) (file_path : String) :
    List ConflictRegion :=
  ConflictParser.parseLoop (pySplitNl content).length (pySplitNl content) 0 file_path

/-! ## `SyntaxValidator` -/

/-- `SyntaxValidator.validate_python`: run `compile(code, '<string>', 'exec')`
and convert the outcome to `(is_valid, error)`. -/
def SyntaxValidator.validate_python (pc : String → PyCompileResult) (code : String) :
    Bool × Option String :=
  match pc code with
  | .ok => (true, none)
  | .syntaxErr lineno msg => (false, some ("Line " ++ toString lineno ++ ": " ++ msg))
  | .otherErr msg => (false, some msg)

/-- `SyntaxValidator.validate`: a full Python parse check for `.py` files
(extension compared lower-cased); for every other extension, any candidate
that is non-empty after stripping whitespace passes. -/
def SyntaxValidator.validate (pc : String → PyCompileResult) (file_path code : String) :
    Bool × Option String :=
  let ext := pyLower (splitextExt file_path)
  if ext = ".py" then
    SyntaxValidator.validate_python pc code
  else if pyStrip code = "" then
    (false, some "Resolved content is empty")
  else
    (true, none)

/-! ## `AIAnalyzer` -/

/-- The analysis prompt built by `AIAnalyzer.analyze_conflict`. -/
def AIAnalyzer.analysisPrompt (conflict : ConflictRegion) : String :=
  let file_ext := splitextExt conflict.file_path
  "You are analyzing a merge conflict. Your job is to EXPLAIN the differences, NOT to write code.\n\n"
    ++ "FILE: " ++ conflict.file_path ++ " (" ++ file_ext ++ ")\n\n"
    ++ "CURRENT BRANCH (" ++ conflict.current_branch ++ "):\n"
    ++ conflict.current_text ++ "\n\n"
    ++ "INCOMING BRANCH (" ++ conflict.incoming_branch ++ "):\n"
    ++ conflict.incoming_text ++ "\n\n"
    ++ "Provide a 2-3 sentence analysis covering:\n"
    ++ "1. What does the CURRENT version do?\n"
    ++ "2. What does the INCOMING version do?\n"
    ++ "3. What is the key difference?\n\n"
    ++ "DO NOT generate any code. DO NOT suggest a resolution. ONLY explain what changed.\n"
    ++ "Keep it concise and clear."

/-- `AIAnalyzer.analyze_conflict`: ask the oracle for an explanation; an
empty response gives a fixed string, a raised exception a fixed failure
string.  Never raises. -/
def AIAnalyzer.analyze_conflict (env : Env) (conflict : ConflictRegion) : String :=
  match env.analyzerLlm (AIAnalyzer.analysisPrompt conflict) with
  | .ok content => if content = "" then "Unable to analyze." else pyStrip content
  | .error e => "Analysis failed: " ++ e

/-! ## `IntelligentMerger` -/

/-- The merge prompt built by `IntelligentMerger.merge_both`. -/
def IntelligentMerger.mergePrompt (conflict : ConflictRegion) (analysis : String) : String :=
  let file_ext := splitextExt conflict.file_path
  "You are merging two versions of code into one valid implementation.\n\n"
    ++ "            FILE: " ++ conflict.file_path ++ " (" ++ file_ext ++ ")\n"
    ++ "            CONTEXT: " ++ analysis ++ "\n\n"
    ++ "            CURRENT VERSION:\n            " ++ conflict.current_text ++ "\n\n"
    ++ "            INCOMING VERSION:\n            " ++ conflict.incoming_text ++ "\n\n"
    ++ "            TASK: Create ONE valid merged version that intelligently combines both.\n\n"
    ++ "            RULES:\n"
    ++ "            1. Output ONLY the merged code, NO explanations or markdown.\n"
    ++ "            2. Ensure syntax is 100% valid.\n"
    ++ "            3. If both versions do the same thing differently, choose the better one.\n"
    ++ "            4. If they provide different functionality, preserve both if it makes sense.\n"
    ++ "            5. If merging both creates invalid code (e.g., duplicate returns), choose the better version.\n"
    ++ "            6. Remove any conflict markers (<<<<<<<, =======, >>>>>>>).\n"
    ++ "            7. Maintain proper indentation and formatting.\n"
    ++ "            8. Do NOT introduce new functions, classes, or variables that are not in either version.\n"
    ++ "            9. If uncertain, prefer the incoming version exactly as written.\n"
    ++ "            10. Do NOT include backticks or markdown formatting.\n"
    ++ "            11. Preserve indentation correctly for Python/YAML code.\n"
    ++ "            12. Use original Function name don't create new name like merged_code, or resolved_code and etc.\n\n"
    ++ "            Merged code:"

/-- A `\w` regex character. -/
def isWordChar (c : Char) : Bool := c.isAlphanum || c = '_'

/-- A line matched by `re.sub(r'^```[\w]*\n', ...)`: a markdown fence made of
three backticks followed only by word characters. -/
def isFenceLine (l : List Char) : Bool :=
  "```".data.isPrefixOf l && (l.drop 3).all isWordChar

/-- Drop every `bad` line segment except the final one (which is not
followed by a newline in the original text, so a multiline
`re.sub(r'^PAT\n', ...)` cannot remove it). -/
def removeBadSegs (bad : List Char → Bool) : List (List Char) → List (List Char)
  | [] => []
  | l :: ls =>
    match ls with
    | [] => [l]
    | _ :: _ => if bad l then removeBadSegs bad ls else l :: removeBadSegs bad ls

/-- One multiline `re.sub(r'^PAT\n', '', code)` pass: drop every line that
satisfies `bad` and is followed by a newline (the last line, not followed by
a newline, is never removed). -/
def removeBadLines (bad : List Char → Bool) (cs : List Char) : List Char :=
  joinNlChars (removeBadSegs bad (splitNlChars cs))

/-- `re.sub(r'\n```$', '', code)`: remove a trailing `"\n```"`, also when it
is followed only by the final newline of the string. -/
def stripTrailingFence (cs : List Char) : List Char :=
  let pat := '\n' :: "```".data
  if pat.isSuffixOf cs then cs.take (cs.length - 4)
  else if (pat ++ ['\n']).isSuffixOf cs then cs.take (cs.length - 5) ++ ['\n']
  else cs

/-- `IntelligentMerger._clean_output`: strip markdown fences and leftover
conflict-marker lines from the oracle response, then strip whitespace. -/
def IntelligentMerger.clean_output (code : String) : String :=
  let s1 := removeBadLines isFenceLine code.data
  let s2 := stripTrailingFence s1
  let s3 := removeBadLines (fun l => "<<<<<<<".data.isPrefixOf l) s2
  let s4 := removeBadLines (fun l => l = "=======".data) s3
  let s5 := removeBadLines (fun l => ">>>>>>>".data.isPrefixOf l) s4
  pyStrip ⟨s5⟩

/-- The fix prompt built by `IntelligentMerger._fix_syntax_error`.  The
`error` slot carries the validator's message (`None` prints as `"None"`). -/
def IntelligentMerger.fixPrompt (conflict : ConflictRegion) (broken_code : String)
    (error : Option String) (file_ext : String) : String :=
  "The following merged code has a syntax error. Fix it.\n\n"
    ++ "FILE TYPE: " ++ file_ext ++ "\n"
    ++ "ERROR: " ++ error.getD "None" ++ "\n\n"
    ++ "BROKEN CODE:\n```\n" ++ broken_code ++ "\n```\n\n"
    ++ "ORIGINAL VERSIONS FOR REFERENCE:\nCURRENT:\n```\n" ++ conflict.current_text ++ "\n```\n\n"
    ++ "INCOMING:\n```\n" ++ conflict.incoming_text ++ "\n```\n\n"
    ++ "Fix the syntax error and output ONLY the corrected code, NO explanations.\n\n"
    ++ "Fixed code:"

/-- `IntelligentMerger._fix_syntax_error`: ask the oracle to fix the broken
candidate; an empty response falls back to the broken code (then cleaned), a
raised exception returns the broken code unchanged. -/
def IntelligentMerger.fix_syntax_error (env : Env) (conflict : ConflictRegion)
    (broken_code : String) (error : Option String) (file_ext : String) : String :=
  match env.mergerLlm (IntelligentMerger.fixPrompt conflict broken_code error file_ext) with
  | .ok content =>
    IntelligentMerger.clean_output (if content = "" then broken_code else pyStrip content)
  | .error _ => broken_code

/-- The body of the retry loop of `IntelligentMerger.merge_both`, recursing
on the number of retries remaining (`max_retries - retry_count`, kept in
lock step with `retry_count`). -/
def IntelligentMerger.fixLoopGo (env : Env) (conflict : ConflictRegion) (file_ext : String) :
    Nat → String → Bool → Option String → Nat → String × Bool × Nat
  | 0, merged, is_valid, _, retry_count => (merged, is_valid, retry_count)
  | remaining + 1, merged, is_valid, error, retry_count =>
    if is_valid then (merged, is_valid, retry_count)
    else
      let merged2 := IntelligentMerger.fix_syntax_error env conflict merged error file_ext
      let v := SyntaxValidator.validate env.pyCompile conflict.file_path merged2
      IntelligentMerger.fixLoopGo env conflict file_ext remaining merged2 v.1 v.2
        (retry_count + 1)

/-- The retry loop of `IntelligentMerger.merge_both`
(`while not is_valid and retry_count < max_retries`).  The returned `Nat` is
the final value of `retry_count`, i.e. the number of fix attempts made. -/
def IntelligentMerger.fixLoop (env : Env) (conflict : ConflictRegion) (file_ext : String)
    (merged : String) (is_valid : Bool) (error : Option String)
    (retry_count max_retries : Nat) : String × Bool × Nat :=
  IntelligentMerger.fixLoopGo env conflict file_ext (max_retries - retry_count)
    merged is_valid error retry_count

/-- `IntelligentMerger.merge_both`, instrumented with the final value of the
source's `retry_count` variable (the number of `_fix_syntax_error` calls).
Total: every oracle exception is caught; failure is reported only through the
returned boolean. -/
def IntelligentMerger.merge_bothCounted (env : Env) (conflict : ConflictRegion)
    (analysis : String) (max_retries : Nat) : (String × Bool) × Nat :=
  let file_ext := splitextExt conflict.file_path
  match env.mergerLlm (IntelligentMerger.mergePrompt conflict analysis) with
  | .error _ => ((conflict.incoming_text, false), 0)
  | .ok content =>
    -- `merged = response.content.strip() if response.content else None`;
    -- the falsy `None` / empty-string cases are both the empty string here
    let merged0 := if content = "" then "" else pyStrip content
    if merged0 = "" then ((conflict.incoming_text, false), 0)
    else
      let merged1 := IntelligentMerger.clean_output merged0
      let v := SyntaxValidator.validate env.pyCompile conflict.file_path merged1
      let r := IntelligentMerger.fixLoop env conflict file_ext merged1 v.1 v.2 0 max_retries
      ((pyStrip r.1, r.2.1), r.2.2)

/-- `IntelligentMerger.merge_both` proper: `(merged_code, is_valid)`.
The source's `max_retries` parameter defaults to 2 at its call site. -/
def IntelligentMerger.merge_both (env : Env) (conflict : ConflictRegion)
    (analysis : String) (max_retries : Nat) : String × Bool :=
  (IntelligentMerger.merge_bothCounted env conflict analysis max_retries).1

/-! ## `ConflictResolver` -/

/-- `ConflictResolver.resolve`: strategy dispatch.  The `interactive` case
models the `raise ValueError(...)` of the final `else` branch. -/
def ConflictResolver.resolve (env : Env) (conflict : ConflictRegion)
    (strategy : ResolutionStrategy) (analysis : String) : Except String (String × Bool) :=
  match strategy with
  | .current => .ok (conflict.current_text, true)
  | .incoming => .ok (conflict.incoming_text, true)
  | .both => .ok (IntelligentMerger.merge_both env conflict analysis 2)
  | .interactive => .error "Unknown strategy: ResolutionStrategy.INTERACTIVE"

/-- The splice loop of `ConflictResolver.apply_resolution`: copy original
lines from the cursor `last` up to each conflict's `start_line`, substitute
the resolution's lines, move the cursor one past the conflict's `end_line`;
copy the tail after the final conflict. -/
def ConflictResolver.spliceLoop (lines : List String) :
    List (ConflictRegion × String) → Nat → List String
  | [], last => lines.drop last
  | (c, r) :: rest, last =>
    pySlice lines last c.start_line ++ pySplitNl r
      ++ ConflictResolver.spliceLoop lines rest (c.end_line + 1)

/-- The `resolved_content` assembled by `ConflictResolver.apply_resolution`
before its final validation. -/
def ConflictResolver.resolvedContent (content : String)
    (conflicts : List ConflictRegion) (resolutions : List String) : String :=
  pyJoinNl (ConflictResolver.spliceLoop (pySplitNl content) (conflicts.zip resolutions) 0)

/-- `ConflictResolver.apply_resolution` on a readable file whose current
on-disk content is `content`: returns the source's `(success, error)` pair
together with the file's on-disk content afterwards (written only when the
final whole-file validation passes). -/
def ConflictResolver.apply_resolution (pc : String → PyCompileResult)
    (file_path content : String) (conflicts : List ConflictRegion)
    (resolutions : List String) : (Bool × Option String) × String :=
  let resolved := ConflictResolver.resolvedContent content conflicts resolutions
  let v := SyntaxValidator.validate pc file_path resolved
  if v.1 then ((true, none), resolved)
  else ((false, some ("Final validation failed: " ++ v.2.getD "None")), content)

/-! ## Orchestration: the `resolve_conflicts` tool -/

/-- Repository state observed and mutated by `resolve_conflicts`: the
conflicted working-tree files (path, content) in `git`'s order, and the
paths staged in the index. -/
structure RepoState where
  files : List (String × String)
  staged : List String
deriving DecidableEq

/-- The tool's result dict: `status`, `message`, and the optional
`resolved` / `total` counts; `failedFiles` carries the `(file, error)`
pairs listed in the failure section of the message. -/
structure ToolResult where
  status : String
  message : String
  resolved : Option Nat
  total : Option Nat
  failedFiles : List (String × String)
deriving DecidableEq

/-- `ResolutionStrategy(value)` lookup by enum value; `none` models the
`ValueError` of an unrecognized value. -/
def strategyOfString (s : String) : Option ResolutionStrategy :=
  if s = "interactive" then some .interactive
  else if s = "current" then some .current
  else if s = "incoming" then some .incoming
  else if s = "both" then some .both
  else none

/-- The error message for an unrecognized strategy, naming the valid
options. -/
def invalidStrategyMsg (strategy : String) : String :=
  "❌ Invalid strategy: " ++ strategy ++ "\nValid options: current, incoming, both"

/-- The guidance message rejecting the placeholder `interactive` strategy. -/
def interactiveStrategyMsg : String :=
  "❌ Use get_merge_conflicts() first to see conflicts,\nthen choose: current, incoming, or both"

/-- The per-conflict resolution loop of `resolve_conflicts`: dispatch each
conflict through `ConflictResolver.resolve`; a raised exception aborts the
loop (and is caught by the per-file handler). -/
def collectResolutions (env : Env) (strat : ResolutionStrategy) :
    List (ConflictRegion × String) → Except String (List (String × Bool))
  | [] => .ok []
  | (c, a) :: rest =>
    match ConflictResolver.resolve env c strat a with
    | .error e => .error e
    | .ok r =>
      match collectResolutions env strat rest with
      | .error e => .error e
      | .ok rs => .ok (r :: rs)

/-- The outcome of processing one conflicted file inside
`resolve_conflicts`: parse, analyze (for the `both` strategy), resolve each
conflict, and apply the reconstruction.  `success`/`err` are
`apply_resolution`'s pair (or the caught exception), `newContent` the file's
on-disk content afterwards, `allValid` the source's `all_valid` flag. -/
structure FileOutcome where
  nConflicts : Nat
  success : Bool
  err : Option String
  newContent : String
  allValid : Bool
deriving DecidableEq

/-- Process one conflicted file (the body of the `for file_path in
conflicted_files` loop, up to staging). -/
def processOneFile (env : Env) (strat : ResolutionStrategy) (file_path content : String) :
    FileOutcome :=
  let conflicts := ConflictParser.parse_content content file_path
  let analyses :=
    if strat = ResolutionStrategy.both then
      conflicts.map (fun c => AIAnalyzer.analyze_conflict env c)
    else
      conflicts.map (fun _ => "")
  match collectResolutions env strat (conflicts.zip analyses) with
  | .error e =>
    -- a raised exception is caught by the per-file handler: the file is
    -- recorded as failed, nothing is written
    { nConflicts := conflicts.length, success := false, err := some e
      newContent := content, allValid := false }
  | .ok rs =>
    let resolutions := rs.map Prod.fst
    let allValid := rs.all Prod.snd
    let ar := ConflictResolver.apply_resolution env.pyCompile file_path content
      conflicts resolutions
    { nConflicts := conflicts.length, success := ar.1.1, err := ar.1.2
      newContent := ar.2, allValid := allValid }

/-- Accumulated run data of the file loop of `resolve_conflicts`. -/
structure RunAcc where
  totalConflicts : Nat
  resolvedCount : Nat
  failedFiles : List (String × String)
  newlyStaged : List String
  outFiles : List (String × String)
deriving DecidableEq

/-- The file loop of `resolve_conflicts`: each file is processed
independently; on a successful apply the file is staged (a staging failure
is recorded as `"Failed to stage"`), otherwise the apply error is
recorded. -/
def processFiles (env : Env) (strat : ResolutionStrategy) :
    List (String × String) → RunAcc
  | [] => ⟨0, 0, [], [], []⟩
  | (fp, content) :: rest =>
    let o := processOneFile env strat fp content
    let acc := processFiles env strat rest
    if o.success then
      if GitOperations.stage_file env fp then
        ⟨o.nConflicts + acc.totalConflicts, o.nConflicts + acc.resolvedCount,
          acc.failedFiles, fp :: acc.newlyStaged, (fp, o.newContent) :: acc.outFiles⟩
      else
        ⟨o.nConflicts + acc.totalConflicts, acc.resolvedCount,
          (fp, "Failed to stage") :: acc.failedFiles, acc.newlyStaged,
          (fp, o.newContent) :: acc.outFiles⟩
    else
      ⟨o.nConflicts + acc.totalConflicts, acc.resolvedCount,
        (fp, o.err.getD "None") :: acc.failedFiles, acc.newlyStaged,
        (fp, o.newContent) :: acc.outFiles⟩

/-- The `'=' * 80` separator row used by `ConflictFormatter`. -/
def sepRow : String :=
  ⟨List.replicate 80 '='⟩

/-- `ConflictFormatter.format_summary` together with the failure details
appended by `resolve_conflicts` (presentation only). -/
def formatSummary (total_files total_conflicts resolved : Nat)
    (failed : List (String × String)) : String :=
  let header :=
    "\n" ++ sepRow
      ++ "\n📊 RESOLUTION SUMMARY\n"
      ++ sepRow
      ++ "\nTotal Files: " ++ toString total_files
      ++ "\nTotal Conflicts: " ++ toString total_conflicts
      ++ "\n✅ Resolved: " ++ toString resolved
      ++ "\n❌ Failed: " ++ toString failed.length
      ++ "\n" ++ sepRow
  let tips :=
    if failed.length = 0 then
      "\n\n✅ All conflicts resolved successfully!\n\n💡 Next steps:\n"
        ++ "   1. Review changes: git diff --cached\n"
        ++ "   2. Commit: git commit -m 'Resolved merge conflicts'"
    else ""
  let failures :=
    if failed = [] then ""
    else
      "\n\n❌ Failed Files:"
        ++ String.join (failed.map (fun p =>
            "\n   • " ++ p.1 ++ "\n     Reason: " ++ p.2))
  header ++ tips ++ failures

/-- The `resolve_conflicts(strategy)` tool on repository state `st`:
validates the strategy (rejecting unknown values and the `interactive`
placeholder before touching any file), short-circuits when no file is
conflicted, and otherwise runs the file loop, staging each successfully
applied file. -/
def resolve_conflicts (env : Env) (strategy : String) (st : RepoState) :
    ToolResult × RepoState :=
  match strategyOfString (pyLower strategy) with
  | none =>
    ({ status := "error", message := invalidStrategyMsg strategy
       resolved := none, total := none, failedFiles := [] }, st)
  | some strat =>
    if strat = ResolutionStrategy.interactive then
      ({ status := "error", message := interactiveStrategyMsg
         resolved := none, total := none, failedFiles := [] }, st)
    else if st.files = [] then
      ({ status := "success", message := "✅ No conflicts to resolve"
         resolved := none, total := none, failedFiles := [] }, st)
    else
      let run := processFiles env strat st.files
      ({ status := if run.failedFiles = [] then "success" else "partial"
         message := formatSummary st.files.length run.totalConflicts
           run.resolvedCount run.failedFiles
         resolved := some run.resolvedCount, total := some run.totalConflicts
         failedFiles := run.failedFiles },
       { files := run.outFiles, staged := st.staged ++ run.newlyStaged })

/-! ## Well-formed conflicted files

A file text "containing N non-overlapping conflict regions" is formalised
as the rendering of a chunk list: plain segments interleaved with complete
conflict blocks, where no content line itself looks like a conflict
marker. -/

/-- A segment of a conflicted file: plain lines, or one complete conflict
block (with optional diff3 base section). -/
inductive Chunk where
  | plain (ls : List String)
  | confl (curLabel : String) (cur : List String)
      (base : Option (String × List String)) (inc : List String) (incLabel : String)
deriving DecidableEq

/-- A line that does not begin with any of the four conflict markers. -/
def markerClean (l : String) : Bool :=
  !(pyStartsWith l "<<<<<<<") && !(pyStartsWith l "=======")
    && !(pyStartsWith l "|||||||") && !(pyStartsWith l ">>>>>>>")

/-- A line containing no newline character. -/
def noNl (l : String) : Bool :=
  l.data.all (fun c => c ≠ '\n')

/-- A content line of a well-formed conflicted file: marker-free and
newline-free. -/
def goodLine (l : String) : Bool := markerClean l && noNl l

/-- The lines of an optional diff3 base section. -/
def baseRender : Option (String × List String) → List String
  | none => []
  | some (bl, bs) => ("||||||| " ++ bl) :: bs

/-- The base-side content of an optional diff3 base section. -/
def baseContentOf : Option (String × List String) → List String
  | none => []
  | some (_, bs) => bs

/-- The label on an optional diff3 base marker. -/
def baseLabelOf : Option (String × List String) → String
  | none => ""
  | some (bl, _) => bl

/-- The lines rendered by one chunk. -/
def renderChunk : Chunk → List String
  | .plain ls => ls
  | .confl cl cur b inc il =>
    ("<<<<<<< " ++ cl) :: (cur ++ baseRender b ++ ["======="] ++ inc ++ [">>>>>>> " ++ il])

/-- The line sequence of a whole chunked file. -/
def renderChunks : List Chunk → List String
  | [] => []
  | c :: cs => renderChunk c ++ renderChunks cs

/-- Well-formedness of one chunk: content lines are marker-free and
newline-free, labels are newline-free, and plain segments are non-empty
(an empty plain segment represents no text). -/
def chunkWF : Chunk → Prop
  | .plain ls => ls ≠ [] ∧ ∀ l ∈ ls, goodLine l
  | .confl cl cur b inc il =>
    noNl cl ∧ noNl il ∧ noNl (baseLabelOf b) ∧
      (∀ l ∈ cur, goodLine l) ∧ (∀ l ∈ baseContentOf b, goodLine l) ∧
      (∀ l ∈ inc, goodLine l)

/-- Well-formedness of a chunked file. -/
def chunksWF (cs : List Chunk) : Prop := ∀ c ∈ cs, chunkWF c

instance : DecidablePred chunkWF := by
  intro c
  cases c <;> simp only [chunkWF] <;> infer_instance

instance (cs : List Chunk) : Decidable (chunksWF cs) := by
  unfold chunksWF; infer_instance

/-- The `ConflictRegion` the parser is expected to produce for a conflict
chunk whose begin marker sits at line `i`. -/
def regionOfConfl (fp : String) (i : Nat) (cl : String) (cur : List String)
    (b : Option (String × List String)) (inc : List String) (il : String) :
    ConflictRegion :=
  { file_path := fp
    start_line := i
    end_line := i + 1 + cur.length + (baseRender b).length + 1 + inc.length
    current_branch := pyStrip (pyReplace ("<<<<<<< " ++ cl) "<<<<<<< " "")
    incoming_branch := pyStrip (pyReplace (">>>>>>> " ++ il) ">>>>>>> " "")
    current_content := cur
    incoming_content := inc
    base_content := baseContentOf b }

/-- The regions the parser is expected to produce for a chunked file whose
first chunk starts at line `i`. -/
def regionsOf (fp : String) (i : Nat) : List Chunk → List ConflictRegion
  | [] => []
  | .plain ls :: rest => regionsOf fp (i + ls.length) rest
  | .confl cl cur b inc il :: rest =>
    regionOfConfl fp i cl cur b inc il
      :: regionsOf fp (i + (renderChunk (.confl cl cur b inc il)).length) rest

/-- The keep-current ("ours") lines of one chunk as the code actually
produces them: a conflict whose current side is empty contributes one empty
line, because Python's `''.split('\n')` is `['']`. -/
def oursChunk : Chunk → List String
  | .plain ls => ls
  | .confl _ cur _ _ _ => if cur = [] then [""] else cur

/-- The keep-current lines of a chunked file. -/
def oursLines : List Chunk → List String
  | [] => []
  | c :: cs => oursChunk c ++ oursLines cs

/-- A quiescent environment for concrete instantiations: the oracle is
unreachable, the compiler accepts everything, staging succeeds. -/
def idleEnv : Env :=
  { analyzerLlm := fun _ => .error "offline"
    mergerLlm := fun _ => .error "offline"
    pyCompile := fun _ => .ok
    gitAddOk := fun _ => true }

/-! ## Basic facts about the string primitives -/

theorem pyStartsWith_append {s m : String} (t : String) (h : pyStartsWith s m = true) :
    pyStartsWith (s ++ t) m = true := by
  simp only [pyStartsWith, List.isPrefixOf_iff_prefix, String.data_append] at h ⊢
  exact h.trans (List.prefix_append s.data t.data)

theorem noNl_append {s t : String} (hs : noNl s = true) (ht : noNl t = true) :
    noNl (s ++ t) = true := by
  simp only [noNl, String.data_append, List.all_append, Bool.and_eq_true] at *
  exact ⟨hs, ht⟩

theorem noNl_mem {s : String} (h : noNl s = true) : ∀ c ∈ s.data, c ≠ '\n' := by
  simpa [noNl, List.all_eq_true] using h

theorem markerClean_starts {l : String} (h : markerClean l = true) :
    pyStartsWith l "<<<<<<<" = false ∧ pyStartsWith l "=======" = false ∧
      pyStartsWith l "|||||||" = false ∧ pyStartsWith l ">>>>>>>" = false := by
  simp only [markerClean, Bool.and_eq_true, Bool.not_eq_true'] at h
  exact ⟨h.1.1.1, h.1.1.2, h.1.2, h.2⟩

theorem goodLine_markerClean {l : String} (h : goodLine l = true) : markerClean l = true := by
  simp only [goodLine, Bool.and_eq_true] at h
  exact h.1

theorem goodLine_noNl {l : String} (h : goodLine l = true) : noNl l = true := by
  simp only [goodLine, Bool.and_eq_true] at h
  exact h.2

/-! ### Splitting and joining lines -/

theorem splitNlChars_of_noNl (l : List Char) (h : ∀ c ∈ l, c ≠ '\n') :
    splitNlChars l = [l] := by
  induction l with
  | nil => rfl
  | cons c rest ih =>
    have hc : c ≠ '\n' := h c (List.mem_cons_self c rest)
    have hr := ih (fun x hx => h x (List.mem_cons_of_mem c hx))
    simp [splitNlChars, hr, hc]

theorem splitNlChars_append (l t : List Char) (h : ∀ c ∈ l, c ≠ '\n') :
    splitNlChars (l ++ '\n' :: t) = l :: splitNlChars t := by
  induction l with
  | nil => simp [splitNlChars]
  | cons c rest ih =>
    have hc : c ≠ '\n' := h c (List.mem_cons_self c rest)
    have hr := ih (fun x hx => h x (List.mem_cons_of_mem c hx))
    simp [splitNlChars, hr, hc]

theorem joinNlChars_cons (l : List Char) (ls : List (List Char)) (h : ls ≠ []) :
    joinNlChars (l :: ls) = l ++ '\n' :: joinNlChars ls := by
  cases ls with
  | nil => exact absurd rfl h
  | cons x xs => rfl

theorem splitNlChars_joinNlChars (ls : List (List Char)) (hne : ls ≠ [])
    (h : ∀ l ∈ ls, ∀ c ∈ l, c ≠ '\n') :
    splitNlChars (joinNlChars ls) = ls := by
  induction ls with
  | nil => exact absurd rfl hne
  | cons l rest ih =>
    cases rest with
    | nil =>
      simpa [joinNlChars] using splitNlChars_of_noNl l (h l (List.mem_cons_self l []))
    | cons x xs =>
      rw [joinNlChars_cons l (x :: xs) (by simp)]
      rw [splitNlChars_append l _ (h l (List.mem_cons_self l (x :: xs)))]
      rw [ih (by simp) (fun l2 hl2 c hc => h l2 (List.mem_cons_of_mem l hl2) c hc)]

theorem pySplitNl_pyJoinNl (ls : List String) (hne : ls ≠ []) (h : ∀ l ∈ ls, noNl l = true) :
    pySplitNl (pyJoinNl ls) = ls := by
  have hmapne : ls.map String.data ≠ [] := by
    simpa using hne
  have hmapnl : ∀ l ∈ ls.map String.data, ∀ c ∈ l, c ≠ '\n' := by
    intro l hl
    obtain ⟨s, hs, rfl⟩ := List.mem_map.mp hl
    exact noNl_mem (h s hs)
  show (splitNlChars (joinNlChars (ls.map String.data))).map (fun l => (⟨l⟩ : String)) = ls
  rw [splitNlChars_joinNlChars _ hmapne hmapnl, List.map_map]
  have : ((fun l => (⟨l⟩ : String)) ∘ String.data) = id := by
    funext s
    rfl
  rw [this, List.map_id]

/-- Python `'\n'.join(ls).split('\n')`: the empty list joins to `''`, which
splits back to `['']`. -/
theorem pySplitNl_pyJoinNl_eq (ls : List String) (h : ∀ l ∈ ls, noNl l = true) :
    pySplitNl (pyJoinNl ls) = if ls = [] then [""] else ls := by
  by_cases hne : ls = []
  · subst hne
    rfl
  · rw [if_neg hne]
    exact pySplitNl_pyJoinNl ls hne h

/-! ### Indexing and scanning facts -/

theorem getD_flat {α : Type} {lines : List α} (a : List α) (x : α) (rest : List α)
    {i : Nat} (d : α)
    (hsplit : lines = a ++ x :: rest) (hi : i = a.length) :
    lines.getD i d = x := by
  subst hsplit hi
  induction a with
  | nil => rfl
  | cons y ys ih => simpa [List.getD] using ih

theorem takeWhile_middle {α : Type} (p : α → Bool) (mid post : List α)
    (hmid : ∀ x ∈ mid, p x = true)
    (hpost : ∀ x xs, post = x :: xs → p x = false) :
    (mid ++ post).takeWhile p = mid := by
  induction mid with
  | nil =>
    cases post with
    | nil => rfl
    | cons x xs => simp [List.takeWhile_cons, hpost x xs rfl]
  | cons m ms ih =>
    have hm : p m = true := hmid m (List.mem_cons_self m ms)
    simp [List.takeWhile_cons, hm,
      ih (fun x hx => hmid x (List.mem_cons_of_mem m hx))]

theorem takeUntil_flat (stop : String → Bool) {lines : List String}
    (a mid post : List String) {i : Nat}
    (hsplit : lines = a ++ (mid ++ post)) (hi : i = a.length)
    (hmid : ∀ l ∈ mid, stop l = false)
    (hpost : ∀ x xs, post = x :: xs → stop x = true) :
    takeUntil stop lines i = mid := by
  subst hsplit hi
  unfold takeUntil
  rw [List.drop_left]
  exact takeWhile_middle _ mid post (by simpa using hmid)
    (fun x xs hx => by simp [hpost x xs hx])

/-! ### Parsing a rendered conflict block -/

theorem parse_single_render (fp : String) (pre post : List String) (cl il : String)
    (cur inc : List String) (b : Option (String × List String))
    (hcur : ∀ l ∈ cur, pyStartsWith l "=======" = false ∧ pyStartsWith l "|||||||" = false)
    (hb : ∀ l ∈ baseContentOf b, pyStartsWith l "=======" = false)
    (hinc : ∀ l ∈ inc, pyStartsWith l ">>>>>>>" = false) :
    ConflictParser.parse_single_conflict
        (pre ++ renderChunk (.confl cl cur b inc il) ++ post) pre.length fp
      = regionOfConfl fp pre.length cl cur b inc il := by
  have hmid1 : ∀ l ∈ cur,
      (pyStartsWith l "=======" || pyStartsWith l "|||||||") = false := by
    intro l hl
    simp [(hcur l hl).1, (hcur l hl).2]
  have hmid3 : ∀ l ∈ inc, (pyStartsWith l ">>>>>>>") = false := hinc
  cases b with
  | none =>
    set L := pre ++ renderChunk (.confl cl cur none inc il) ++ post with hLdef
    have hshape : L = pre ++ ("<<<<<<< " ++ cl)
        :: (cur ++ "=======" :: (inc ++ (">>>>>>> " ++ il) :: post)) := by
      simp [hLdef, renderChunk, baseRender]
    have hlen : L.length = pre.length + 1 + cur.length + 1 + inc.length + 1 + post.length := by
      rw [hshape]
      simp
      omega
    have h0 : L.getD pre.length "" = "<<<<<<< " ++ cl :=
      getD_flat pre ("<<<<<<< " ++ cl)
        (cur ++ "=======" :: (inc ++ (">>>>>>> " ++ il) :: post)) "" hshape rfl
    have hcc : takeUntil (fun l => pyStartsWith l "=======" || pyStartsWith l "|||||||")
        L (pre.length + 1) = cur := by
      refine takeUntil_flat _ (pre ++ ["<<<<<<< " ++ cl]) cur
        ("=======" :: (inc ++ (">>>>>>> " ++ il) :: post)) ?_ (by simp) hmid1 ?_
      · rw [hshape]
        simp
      · intro x xs hx
        injection hx with h1 _
        subst h1
        decide
    have hgd1 : L.getD (pre.length + 1 + cur.length) "" = "=======" := by
      refine getD_flat (pre ++ ("<<<<<<< " ++ cl) :: cur) "======="
        (inc ++ (">>>>>>> " ++ il) :: post) "" ?_ (by simp; omega)
      rw [hshape]
      simp
    have hic : takeUntil (fun l => pyStartsWith l ">>>>>>>")
        L (pre.length + 1 + cur.length + 1) = inc := by
      refine takeUntil_flat _ (pre ++ ("<<<<<<< " ++ cl) :: cur ++ ["======="]) inc
        ((">>>>>>> " ++ il) :: post) ?_ (by simp; omega) hmid3 ?_
      · rw [hshape]
        simp
      · intro x xs hx
        injection hx with h1 _
        subst h1
        exact pyStartsWith_append il (by decide)
    have hgd4 : L.getD (pre.length + 1 + cur.length + 1 + inc.length) ""
        = ">>>>>>> " ++ il := by
      refine getD_flat (pre ++ ("<<<<<<< " ++ cl) :: cur ++ ["======="] ++ inc)
        (">>>>>>> " ++ il) post "" ?_ (by simp; omega)
      rw [hshape]
      simp
    have hnb : ¬ (pre.length + 1 + cur.length < L.length ∧
        pyStartsWith (L.getD (pre.length + 1 + cur.length) "") "|||||||" = true) := by
      rw [hgd1]
      intro hand
      exact absurd hand.2 (by decide)
    simp only [ConflictParser.parse_single_conflict, hcc, h0]
    rw [if_neg hnb, if_neg hnb]
    rw [if_pos (show pre.length + 1 + cur.length < L.length ∧
        pyStartsWith (L.getD (pre.length + 1 + cur.length) "") "=======" = true from
      ⟨by rw [hlen]; omega, by rw [hgd1]; decide⟩)]
    rw [hic]
    rw [if_pos (show pre.length + 1 + cur.length + 1 + inc.length < L.length ∧
        pyStartsWith (L.getD (pre.length + 1 + cur.length + 1 + inc.length) "") ">>>>>>>"
          = true from
      ⟨by rw [hlen]; omega, by rw [hgd4]; exact pyStartsWith_append il (by decide)⟩)]
    rw [hgd4]
    simp [regionOfConfl, baseRender, baseContentOf]
    try omega
  | some p =>
    obtain ⟨bl, bs⟩ := p
    have hbs : ∀ l ∈ bs, pyStartsWith l "=======" = false := by
      simpa [baseContentOf] using hb
    set L := pre ++ renderChunk (.confl cl cur (some (bl, bs)) inc il) ++ post with hLdef
    have hshape : L = pre ++ ("<<<<<<< " ++ cl)
        :: (cur ++ ("||||||| " ++ bl)
          :: (bs ++ "=======" :: (inc ++ (">>>>>>> " ++ il) :: post))) := by
      simp [hLdef, renderChunk, baseRender]
    have hlen : L.length
        = pre.length + 1 + cur.length + 1 + bs.length + 1 + inc.length + 1 + post.length := by
      rw [hshape]
      simp
      omega
    have h0 : L.getD pre.length "" = "<<<<<<< " ++ cl :=
      getD_flat pre ("<<<<<<< " ++ cl)
        (cur ++ ("||||||| " ++ bl) :: (bs ++ "=======" :: (inc ++ (">>>>>>> " ++ il) :: post)))
        "" hshape rfl
    have hcc : takeUntil (fun l => pyStartsWith l "=======" || pyStartsWith l "|||||||")
        L (pre.length + 1) = cur := by
      refine takeUntil_flat _ (pre ++ ["<<<<<<< " ++ cl]) cur
        (("||||||| " ++ bl) :: (bs ++ "=======" :: (inc ++ (">>>>>>> " ++ il) :: post)))
        ?_ (by simp) hmid1 ?_
      · rw [hshape]
        simp
      · intro x xs hx
        injection hx with h1 _
        subst h1
        simp [pyStartsWith_append bl (show pyStartsWith "||||||| " "|||||||" = true by decide)]
    have hgd1 : L.getD (pre.length + 1 + cur.length) "" = "||||||| " ++ bl := by
      refine getD_flat (pre ++ ("<<<<<<< " ++ cl) :: cur) ("||||||| " ++ bl)
        (bs ++ "=======" :: (inc ++ (">>>>>>> " ++ il) :: post)) "" ?_ (by simp; omega)
      rw [hshape]
      simp
    have hbc : takeUntil (fun l => pyStartsWith l "=======")
        L (pre.length + 1 + cur.length + 1) = bs := by
      refine takeUntil_flat _ (pre ++ ("<<<<<<< " ++ cl) :: cur ++ ["||||||| " ++ bl]) bs
        ("=======" :: (inc ++ (">>>>>>> " ++ il) :: post)) ?_ (by simp; omega) hbs ?_
      · rw [hshape]
        simp
      · intro x xs hx
        injection hx with h1 _
        subst h1
        decide
    have hgd2 : L.getD (pre.length + 1 + cur.length + 1 + bs.length) "" = "=======" := by
      refine getD_flat
        (pre ++ ("<<<<<<< " ++ cl) :: cur ++ ["||||||| " ++ bl] ++ bs) "======="
        (inc ++ (">>>>>>> " ++ il) :: post) "" ?_ (by simp; omega)
      rw [hshape]
      simp
    have hic : takeUntil (fun l => pyStartsWith l ">>>>>>>")
        L (pre.length + 1 + cur.length + 1 + bs.length + 1) = inc := by
      refine takeUntil_flat _
        (pre ++ ("<<<<<<< " ++ cl) :: cur ++ ["||||||| " ++ bl] ++ bs ++ ["======="]) inc
        ((">>>>>>> " ++ il) :: post) ?_ (by simp; omega) hmid3 ?_
      · rw [hshape]
        simp
      · intro x xs hx
        injection hx with h1 _
        subst h1
        exact pyStartsWith_append il (by decide)
    have hgd4 : L.getD (pre.length + 1 + cur.length + 1 + bs.length + 1 + inc.length) ""
        = ">>>>>>> " ++ il := by
      refine getD_flat
        (pre ++ ("<<<<<<< " ++ cl) :: cur ++ ["||||||| " ++ bl] ++ bs ++ ["======="] ++ inc)
        (">>>>>>> " ++ il) post "" ?_ (by simp; omega)
      rw [hshape]
      simp
    have hp1 : pre.length + 1 + cur.length < L.length ∧
        pyStartsWith (L.getD (pre.length + 1 + cur.length) "") "|||||||" = true :=
      ⟨by rw [hlen]; omega, by rw [hgd1]; exact pyStartsWith_append bl (by decide)⟩
    simp only [ConflictParser.parse_single_conflict, hcc, h0]
    rw [if_pos hp1, if_pos hp1]
    rw [hbc]
    rw [if_pos (show pre.length + 1 + cur.length + 1 + bs.length < L.length ∧
        pyStartsWith (L.getD (pre.length + 1 + cur.length + 1 + bs.length) "") "======="
          = true from
      ⟨by rw [hlen]; omega, by rw [hgd2]; decide⟩)]
    rw [hic]
    rw [if_pos (show pre.length + 1 + cur.length + 1 + bs.length + 1 + inc.length < L.length ∧
        pyStartsWith
          (L.getD (pre.length + 1 + cur.length + 1 + bs.length + 1 + inc.length) "") ">>>>>>>"
          = true from
      ⟨by rw [hlen]; omega, by rw [hgd4]; exact pyStartsWith_append il (by decide)⟩)]
    rw [hgd4]
    simp [regionOfConfl, baseRender, baseContentOf]
    try omega

/-! ### The scanning loop over a whole rendered file -/

theorem parseLoop_at_end (fp : String) (lines : List String) (fuel i : Nat)
    (h : lines.length ≤ i) : ConflictParser.parseLoop fuel lines i fp = [] := by
  cases fuel with
  | zero => rfl
  | succ f => simp [ConflictParser.parseLoop, Nat.not_lt.mpr h]

theorem parseLoop_skip (fp : String) (lines : List String) (mid : List String) :
    ∀ (a rest : List String) (fuel : Nat), lines = a ++ (mid ++ rest) →
      (∀ l ∈ mid, pyStartsWith l "<<<<<<<" = false) →
      ConflictParser.parseLoop (mid.length + fuel) lines a.length fp
        = ConflictParser.parseLoop fuel lines (a.length + mid.length) fp := by
  induction mid with
  | nil => intro a rest fuel _ _; simp
  | cons m ms ih =>
    intro a rest fuel hsplit hmid
    have hm : pyStartsWith m "<<<<<<<" = false := hmid m (List.mem_cons_self m ms)
    have hlt : a.length < lines.length := by
      rw [hsplit]
      simp
    have hgd : lines.getD a.length "" = m :=
      getD_flat a m (ms ++ rest) "" (by rw [hsplit]; simp) rfl
    have hfuel : (m :: ms).length + fuel = (ms.length + fuel) + 1 := by
      simp
      omega
    rw [hfuel]
    show ConflictParser.parseLoop ((ms.length + fuel) + 1) lines a.length fp = _
    rw [ConflictParser.parseLoop]
    rw [if_pos hlt, hgd, hm]
    simp only [Bool.false_eq_true, if_false]
    have := ih (a ++ [m]) rest fuel (by rw [hsplit]; simp)
      (fun l hl => hmid l (List.mem_cons_of_mem m hl))
    simp only [List.length_append, List.length_cons, List.length_nil] at this ⊢
    have harith : a.length + (ms.length + 1) = a.length + 1 + ms.length := by omega
    rw [harith]
    simpa using this

theorem renderChunk_ne_nil (c : Chunk) (h : chunkWF c) : renderChunk c ≠ [] := by
  cases c with
  | plain ls => exact h.1
  | confl cl cur b inc il => simp [renderChunk]

theorem parseLoop_render (fp : String) (chunks : List Chunk) :
    ∀ (pre : List String) (fuel : Nat), chunksWF chunks →
      (pre ++ renderChunks chunks).length - pre.length ≤ fuel →
      ConflictParser.parseLoop fuel (pre ++ renderChunks chunks) pre.length fp
        = regionsOf fp pre.length chunks := by
  induction chunks with
  | nil =>
    intro pre fuel _ _
    exact parseLoop_at_end fp _ fuel _ (by simp [renderChunks])
  | cons c rest ih =>
    intro pre fuel hwf hfuel
    have hwfc : chunkWF c := hwf c (List.mem_cons_self c rest)
    have hwfr : chunksWF rest := fun x hx => hwf x (List.mem_cons_of_mem c hx)
    cases c with
    | plain ls =>
      -- a plain segment is skipped line by line
      have hls : ∀ l ∈ ls, pyStartsWith l "<<<<<<<" = false := by
        intro l hl
        exact (markerClean_starts (goodLine_markerClean (hwfc.2 l hl))).1
      obtain ⟨f2, rfl⟩ : ∃ f2, fuel = ls.length + f2 := by
        refine ⟨fuel - ls.length, ?_⟩
        simp [renderChunks, renderChunk] at hfuel
        omega
      rw [show renderChunks (.plain ls :: rest) = ls ++ renderChunks rest from rfl]
      rw [parseLoop_skip fp (pre ++ (ls ++ renderChunks rest)) ls pre (renderChunks rest)
        f2 (by simp) hls]
      have h2 := ih (pre ++ ls) f2 hwfr (by
        simp [renderChunks, renderChunk] at hfuel ⊢
        omega)
      rw [show (pre ++ ls) ++ renderChunks rest = pre ++ (ls ++ renderChunks rest) by simp] at h2
      simp only [List.length_append] at h2
      rw [h2]
      rfl
    | confl cl cur b inc il =>
      obtain ⟨hcl, hil, hbl, hcur, hbase, hinc⟩ := hwfc
      have hlt : pre.length < (pre ++ renderChunks (.confl cl cur b inc il :: rest)).length := by
        simp [renderChunks, renderChunk]
      have hgd : (pre ++ renderChunks (.confl cl cur b inc il :: rest)).getD pre.length ""
          = "<<<<<<< " ++ cl := by
        refine getD_flat pre ("<<<<<<< " ++ cl)
          ((cur ++ baseRender b ++ ["======="] ++ inc ++ [">>>>>>> " ++ il])
            ++ renderChunks rest) "" ?_ rfl
        simp [renderChunks, renderChunk]
      have hstarts : pyStartsWith ("<<<<<<< " ++ cl) "<<<<<<<" = true :=
        pyStartsWith_append cl (by decide)
      have hsingle : ConflictParser.parse_single_conflict
          (pre ++ renderChunks (.confl cl cur b inc il :: rest)) pre.length fp
            = regionOfConfl fp pre.length cl cur b inc il := by
        have := parse_single_render fp pre (renderChunks rest) cl il cur inc b
          (fun l hl => ⟨(markerClean_starts (goodLine_markerClean (hcur l hl))).2.1,
            (markerClean_starts (goodLine_markerClean (hcur l hl))).2.2.1⟩)
          (fun l hl => (markerClean_starts (goodLine_markerClean (hbase l hl))).2.1)
          (fun l hl => (markerClean_starts (goodLine_markerClean (hinc l hl))).2.2.2)
        rw [show pre ++ renderChunk (.confl cl cur b inc il) ++ renderChunks rest
          = pre ++ renderChunks (.confl cl cur b inc il :: rest) by simp [renderChunks]] at this
        exact this
      obtain ⟨f, rfl⟩ : ∃ f, fuel = f + 1 := by
        refine ⟨fuel - 1, ?_⟩
        simp [renderChunks, renderChunk] at hfuel
        omega
      rw [ConflictParser.parseLoop]
      rw [if_pos hlt, hgd, hstarts]
      simp only [if_true]
      rw [hsingle]
      have hend : (regionOfConfl fp pre.length cl cur b inc il).end_line + 1
          = (pre ++ renderChunk (.confl cl cur b inc il)).length := by
        simp [regionOfConfl, renderChunk]
        omega
      have h2 := ih (pre ++ renderChunk (.confl cl cur b inc il)) f hwfr (by
        simp [renderChunks, renderChunk] at hfuel ⊢
        omega)
      rw [show (pre ++ renderChunk (.confl cl cur b inc il)) ++ renderChunks rest
        = pre ++ renderChunks (.confl cl cur b inc il :: rest) by simp [renderChunks]] at h2
      rw [hend, h2]
      show _ = regionsOf fp pre.length (.confl cl cur b inc il :: rest)
      simp only [regionsOf]
      congr 1
      simp [renderChunk]
      try omega

theorem renderChunk_noNl (c : Chunk) (h : chunkWF c) :
    ∀ l ∈ renderChunk c, noNl l = true := by
  cases c with
  | plain ls =>
    intro l hl
    exact goodLine_noNl (h.2 l hl)
  | confl cl cur b inc il =>
    obtain ⟨hcl, hil, hbl, hcur, hbase, hinc⟩ := h
    intro l hl
    rw [renderChunk] at hl
    rcases List.mem_cons.mp hl with rfl | hl2
    · exact noNl_append (by decide) hcl
    · rcases List.mem_append.mp hl2 with hl3 | he
      · rcases List.mem_append.mp hl3 with hl4 | hi
        · rcases List.mem_append.mp hl4 with hl5 | hs
          · rcases List.mem_append.mp hl5 with hc | hb
            · exact goodLine_noNl (hcur l hc)
            · cases b with
              | none => simp [baseRender] at hb
              | some p =>
                obtain ⟨bl, bs⟩ := p
                rcases List.mem_cons.mp hb with rfl | hb2
                · exact noNl_append (by decide) (by simpa [baseLabelOf] using hbl)
                · exact goodLine_noNl (hbase l (by simpa [baseContentOf] using hb2))
          · rcases List.mem_singleton.mp hs with rfl
            decide
        · exact goodLine_noNl (hinc l hi)
      · rcases List.mem_singleton.mp he with rfl
        exact noNl_append (by decide) hil

theorem renderChunks_noNl (chunks : List Chunk) (hwf : chunksWF chunks) :
    ∀ l ∈ renderChunks chunks, noNl l = true := by
  induction chunks with
  | nil => simp [renderChunks]
  | cons c rest ih =>
    intro l hl
    simp only [renderChunks, List.mem_append] at hl
    rcases hl with hl | hl
    · exact renderChunk_noNl c (hwf c (List.mem_cons_self c rest)) l hl
    · exact ih (fun x hx => hwf x (List.mem_cons_of_mem c hx)) l hl

theorem renderChunks_ne_nil (chunks : List Chunk) (hwf : chunksWF chunks)
    (hne : chunks ≠ []) : renderChunks chunks ≠ [] := by
  cases chunks with
  | nil => exact absurd rfl hne
  | cons c rest =>
    simp only [renderChunks, ne_eq, List.append_eq_nil, not_and]
    intro hc
    exact absurd hc (renderChunk_ne_nil c (hwf c (List.mem_cons_self c rest)))

/-- Parsing the rendered text of a well-formed chunked file yields exactly
its conflict regions. -/
theorem parse_content_render (fp : String) (chunks : List Chunk)
    (hwf : chunksWF chunks) (hne : chunks ≠ []) :
    ConflictParser.parse_content (pyJoinNl (renderChunks chunks)) fp
      = regionsOf fp 0 chunks := by
  unfold ConflictParser.parse_content
  rw [pySplitNl_pyJoinNl (renderChunks chunks) (renderChunks_ne_nil chunks hwf hne)
    (renderChunks_noNl chunks hwf)]
  have := parseLoop_render fp chunks [] (renderChunks chunks).length hwf (by simp)
  simpa using this

/-! ### Splicing the keep-current resolutions back in -/

theorem regionsOf_start_ge (fp : String) (chunks : List Chunk) :
    ∀ (i : Nat) (c : ConflictRegion), c ∈ regionsOf fp i chunks → i ≤ c.start_line := by
  induction chunks with
  | nil => intro i c hc; simp [regionsOf] at hc
  | cons ch rest ih =>
    intro i c hc
    cases ch with
    | plain ls =>
      have := ih (i + ls.length) c (by simpa [regionsOf] using hc)
      omega
    | confl cl cur b inc il =>
      simp only [regionsOf, List.mem_cons] at hc
      rcases hc with rfl | hc
      · simp [regionOfConfl]
      · have := ih _ c hc
        omega

theorem oursLines_of_no_regions (fp : String) (chunks : List Chunk) :
    ∀ i : Nat, regionsOf fp i chunks = [] → oursLines chunks = renderChunks chunks := by
  induction chunks with
  | nil => intro i _; rfl
  | cons ch rest ih =>
    intro i hreg
    cases ch with
    | plain ls =>
      simp only [regionsOf] at hreg
      simp only [oursLines, oursChunk, renderChunks, renderChunk]
      rw [ih (i + ls.length) hreg]
    | confl cl cur b inc il => simp [regionsOf] at hreg

theorem spliceLoop_shift (lines : List String) (a mid rest : List String)
    (pairs : List (ConflictRegion × String))
    (hsplit : lines = a ++ (mid ++ rest))
    (hfirst : ∀ c r ps, pairs = (c, r) :: ps → a.length + mid.length ≤ c.start_line) :
    ConflictResolver.spliceLoop lines pairs a.length
      = mid ++ ConflictResolver.spliceLoop lines pairs (a.length + mid.length) := by
  cases pairs with
  | nil =>
    show lines.drop a.length = mid ++ lines.drop (a.length + mid.length)
    subst hsplit
    rw [List.drop_left]
    rw [show (a ++ (mid ++ rest)) = (a ++ mid) ++ rest by simp]
    rw [show a.length + mid.length = (a ++ mid).length by simp]
    rw [List.drop_left]
  | cons p ps =>
    obtain ⟨c, r⟩ := p
    have hge : a.length + mid.length ≤ c.start_line := hfirst c r ps rfl
    show pySlice lines a.length c.start_line ++ _ ++ _
      = mid ++ (pySlice lines (a.length + mid.length) c.start_line ++ _ ++ _)
    have hslice : pySlice lines a.length c.start_line
        = mid ++ pySlice lines (a.length + mid.length) c.start_line := by
      unfold pySlice
      subst hsplit
      rw [List.drop_left]
      rw [show (a ++ (mid ++ rest)) = (a ++ mid) ++ rest by simp]
      rw [show a.length + mid.length = (a ++ mid).length by simp]
      rw [List.drop_left]
      rw [show c.start_line - a.length = mid.length + (c.start_line - a.length - mid.length) by
        omega]
      rw [List.take_append]
      congr 2
      simp
      omega
    rw [hslice]
    simp

/-- Splicing the per-region `current_text` resolutions into a rendered
chunked file yields its keep-current lines. -/
theorem splice_render (fp : String) (chunks : List Chunk) :
    ∀ pre : List String, chunksWF chunks →
      ConflictResolver.spliceLoop (pre ++ renderChunks chunks)
        ((regionsOf fp pre.length chunks).zip
          ((regionsOf fp pre.length chunks).map ConflictRegion.current_text)) pre.length
        = oursLines chunks := by
  induction chunks with
  | nil =>
    intro pre _
    show (pre ++ renderChunks []).drop pre.length = oursLines []
    simp [renderChunks, oursLines]
  | cons ch rest ih =>
    intro pre hwf
    have hwfc : chunkWF ch := hwf ch (List.mem_cons_self ch rest)
    have hwfr : chunksWF rest := fun x hx => hwf x (List.mem_cons_of_mem ch hx)
    cases ch with
    | plain ls =>
      simp only [regionsOf, oursLines, oursChunk]
      have hshift := spliceLoop_shift (pre ++ renderChunks (.plain ls :: rest)) pre ls
        (renderChunks rest)
        ((regionsOf fp (pre.length + ls.length) rest).zip
          ((regionsOf fp (pre.length + ls.length) rest).map ConflictRegion.current_text))
        (by simp [renderChunks, renderChunk])
        (by
          intro c r ps hp
          have hc : c ∈ regionsOf fp (pre.length + ls.length) rest := by
            have : (c, r) ∈ (regionsOf fp (pre.length + ls.length) rest).zip
                ((regionsOf fp (pre.length + ls.length) rest).map
                  ConflictRegion.current_text) := by
              rw [hp]
              exact List.mem_cons_self _ _
            exact (List.of_mem_zip this).1
          exact regionsOf_start_ge fp rest (pre.length + ls.length) c hc)
      rw [hshift]
      have h2 := ih (pre ++ ls) hwfr
      rw [show (pre ++ ls) ++ renderChunks rest
        = pre ++ renderChunks (.plain ls :: rest) by simp [renderChunks, renderChunk]] at h2
      simp only [List.length_append] at h2
      rw [h2]
    | confl cl cur b inc il =>
      obtain ⟨hcl, hil, hbl, hcur, hbase, hinc⟩ := hwfc
      simp only [regionsOf, oursLines, oursChunk, List.map_cons, List.zip_cons_cons]
      show pySlice _ pre.length (regionOfConfl fp pre.length cl cur b inc il).start_line
          ++ pySplitNl (regionOfConfl fp pre.length cl cur b inc il).current_text
          ++ ConflictResolver.spliceLoop _ _
            ((regionOfConfl fp pre.length cl cur b inc il).end_line + 1)
        = _
      have hslice0 : pySlice (pre ++ renderChunks (.confl cl cur b inc il :: rest))
          pre.length (regionOfConfl fp pre.length cl cur b inc il).start_line = [] := by
        simp [pySlice, regionOfConfl]
      have hsplit : pySplitNl (regionOfConfl fp pre.length cl cur b inc il).current_text
          = if cur = [] then [""] else cur := by
        show pySplitNl (pyJoinNl cur) = _
        exact pySplitNl_pyJoinNl_eq cur (fun l hl => goodLine_noNl (hcur l hl))
      have hend : (regionOfConfl fp pre.length cl cur b inc il).end_line + 1
          = (pre ++ renderChunk (.confl cl cur b inc il)).length := by
        simp [regionOfConfl, renderChunk]
        omega
      have h2 := ih (pre ++ renderChunk (.confl cl cur b inc il)) hwfr
      rw [show (pre ++ renderChunk (.confl cl cur b inc il)) ++ renderChunks rest
        = pre ++ renderChunks (.confl cl cur b inc il :: rest) by simp [renderChunks]] at h2
      rw [hslice0, hsplit, hend]
      simp only [List.length_append] at h2 ⊢
      rw [show pre.length + (renderChunk (.confl cl cur b inc il)).length
        = (pre ++ renderChunk (.confl cl cur b inc il)).length by simp] at h2 ⊢
      rw [h2]
      simp

theorem oursLines_markerClean (chunks : List Chunk) (hwf : chunksWF chunks) :
    ∀ l ∈ oursLines chunks, markerClean l = true := by
  induction chunks with
  | nil => simp [oursLines]
  | cons ch rest ih =>
    intro l hl
    simp only [oursLines, List.mem_append] at hl
    have hwfc : chunkWF ch := hwf ch (List.mem_cons_self ch rest)
    rcases hl with hl | hl
    · cases ch with
      | plain ls => exact goodLine_markerClean (hwfc.2 l hl)
      | confl cl cur b inc il =>
        simp only [oursChunk] at hl
        by_cases hc : cur = []
        · rw [if_pos hc] at hl
          simp only [List.mem_singleton] at hl
          subst hl
          decide
        · rw [if_neg hc] at hl
          exact goodLine_markerClean (hwfc.2.2.2.1 l hl)
    · exact ih (fun x hx => hwf x (List.mem_cons_of_mem ch hx)) l hl

theorem oursLines_noNl (chunks : List Chunk) (hwf : chunksWF chunks) :
    ∀ l ∈ oursLines chunks, noNl l = true := by
  induction chunks with
  | nil => simp [oursLines]
  | cons ch rest ih =>
    intro l hl
    simp only [oursLines, List.mem_append] at hl
    have hwfc : chunkWF ch := hwf ch (List.mem_cons_self ch rest)
    rcases hl with hl | hl
    · cases ch with
      | plain ls => exact goodLine_noNl (hwfc.2 l hl)
      | confl cl cur b inc il =>
        simp only [oursChunk] at hl
        by_cases hc : cur = []
        · rw [if_pos hc] at hl
          simp only [List.mem_singleton] at hl
          subst hl
          decide
        · rw [if_neg hc] at hl
          exact goodLine_noNl (hwfc.2.2.2.1 l hl)
    · exact ih (fun x hx => hwf x (List.mem_cons_of_mem ch hx)) l hl

theorem oursLines_ne_nil (chunks : List Chunk) (hwf : chunksWF chunks)
    (hne : chunks ≠ []) : oursLines chunks ≠ [] := by
  cases chunks with
  | nil => exact absurd rfl hne
  | cons ch rest =>
    have hwfc : chunkWF ch := hwf ch (List.mem_cons_self ch rest)
    simp only [oursLines, ne_eq, List.append_eq_nil, not_and]
    intro hc
    cases ch with
    | plain ls => exact absurd hc hwfc.1
    | confl cl cur b inc il =>
      simp only [oursChunk] at hc
      by_cases h : cur = []
      · rw [if_pos h] at hc
        simp at hc
      · rw [if_neg h] at hc
        exact absurd hc h

/-- The keep-current splice over a rendered well-formed file, end to end at
the content level. -/
theorem resolvedContent_keep_current (fp : String) (chunks : List Chunk)
    (hwf : chunksWF chunks) (hne : chunks ≠ []) :
    ConflictResolver.resolvedContent (pyJoinNl (renderChunks chunks))
        (ConflictParser.parse_content (pyJoinNl (renderChunks chunks)) fp)
        ((ConflictParser.parse_content (pyJoinNl (renderChunks chunks)) fp).map
          ConflictRegion.current_text)
      = pyJoinNl (oursLines chunks) := by
  unfold ConflictResolver.resolvedContent
  rw [parse_content_render fp chunks hwf hne]
  rw [pySplitNl_pyJoinNl (renderChunks chunks) (renderChunks_ne_nil chunks hwf hne)
    (renderChunks_noNl chunks hwf)]
  have h := splice_render fp chunks [] hwf
  simp only [List.nil_append, List.length_nil] at h
  rw [h]

/-! ## Claims -/

/-- C1 (counterexample to the claim as stated).  The file
`"a\n<<<<<<< x\n=======\nb\n>>>>>>> y\nc"` contains one conflict region
(lines 1–4) whose current side is empty; the lines outside the region are
`"a"` and `"c"`.  The claim predicts exactly the ours content `"a\nc"`
(outside lines unchanged, the region replaced by its zero `current_content`
lines), but parsing, resolving with keep-current and reconstructing via
`apply_resolution`'s splice yields `"a\n\nc"`: the empty current text is
re-split by Python's `''.split('\n') == ['']` into one empty line. -/
theorem C1_empty_current_counterexample :
    ConflictResolver.resolvedContent "a\n<<<<<<< x\n=======\nb\n>>>>>>> y\nc"
        (ConflictParser.parse_content "a\n<<<<<<< x\n=======\nb\n>>>>>>> y\nc" "f.txt")
        ((ConflictParser.parse_content "a\n<<<<<<< x\n=======\nb\n>>>>>>> y\nc" "f.txt").map
          ConflictRegion.current_text)
      = "a\n\nc"
    ∧ (ConflictParser.parse_content "a\n<<<<<<< x\n=======\nb\n>>>>>>> y\nc"
        "f.txt").map ConflictRegion.current_content = [[]]
    ∧ ("a\n\nc" : String) ≠ "a\nc" := by
  refine ⟨by decide, by decide, by decide⟩

/-- C1 (amended).  For every file text consisting of N ≥ 0 non-overlapping
conflict regions interleaved with marker-free plain segments (rendered from
a well-formed chunk decomposition), parsing with `ConflictParser`, resolving
every conflict with the keep-current strategy (which returns each region's
`current_text` flagged valid) and reconstructing via `apply_resolution`'s
splice produces the file's ours content, with one amendment forced by the
counterexample: all original lines outside the regions appear unchanged and
in order, each region is replaced by its `current_content` lines — except
that a region whose current side is empty is replaced by a single empty
line (Python re-splits the empty resolution string into `['']`) — and no
conflict-marker line remains in the output. -/
theorem C1_keep_current_round_trip (env : Env) (fp : String) (chunks : List Chunk)
    (hwf : chunksWF chunks) (hne : chunks ≠ []) :
    (∀ c ∈ ConflictParser.parse_content (pyJoinNl (renderChunks chunks)) fp,
      ConflictResolver.resolve env c .current "" = .ok (c.current_text, true)) ∧
    ConflictResolver.resolvedContent (pyJoinNl (renderChunks chunks))
        (ConflictParser.parse_content (pyJoinNl (renderChunks chunks)) fp)
        ((ConflictParser.parse_content (pyJoinNl (renderChunks chunks)) fp).map
          ConflictRegion.current_text)
      = pyJoinNl (oursLines chunks) ∧
    ∀ l ∈ pySplitNl (ConflictResolver.resolvedContent (pyJoinNl (renderChunks chunks))
        (ConflictParser.parse_content (pyJoinNl (renderChunks chunks)) fp)
        ((ConflictParser.parse_content (pyJoinNl (renderChunks chunks)) fp).map
          ConflictRegion.current_text)),
      markerClean l = true := by
  refine ⟨fun c _ => rfl, resolvedContent_keep_current fp chunks hwf hne, ?_⟩
  rw [resolvedContent_keep_current fp chunks hwf hne]
  rw [pySplitNl_pyJoinNl (oursLines chunks) (oursLines_ne_nil chunks hwf hne)
    (oursLines_noNl chunks hwf)]
  exact oursLines_markerClean chunks hwf

/-- C1 witness: a file with one plain line, one two-line keep-current
conflict, and one trailing plain line. -/
theorem C1_keep_current_round_trip_witness :
    chunksWF [Chunk.plain ["x"], Chunk.confl "a" ["c1", "c2"] none ["i1"] "b",
      Chunk.plain ["y"]] ∧
    pyJoinNl (renderChunks [Chunk.plain ["x"], Chunk.confl "a" ["c1", "c2"] none ["i1"] "b",
      Chunk.plain ["y"]]) = "x\n<<<<<<< a\nc1\nc2\n=======\ni1\n>>>>>>> b\ny" ∧
    ConflictResolver.resolvedContent
        (pyJoinNl (renderChunks [Chunk.plain ["x"],
          Chunk.confl "a" ["c1", "c2"] none ["i1"] "b", Chunk.plain ["y"]]))
        (ConflictParser.parse_content
          (pyJoinNl (renderChunks [Chunk.plain ["x"],
            Chunk.confl "a" ["c1", "c2"] none ["i1"] "b", Chunk.plain ["y"]])) "f.txt")
        ((ConflictParser.parse_content
          (pyJoinNl (renderChunks [Chunk.plain ["x"],
            Chunk.confl "a" ["c1", "c2"] none ["i1"] "b", Chunk.plain ["y"]])) "f.txt").map
          ConflictRegion.current_text)
      = pyJoinNl (oursLines [Chunk.plain ["x"],
          Chunk.confl "a" ["c1", "c2"] none ["i1"] "b", Chunk.plain ["y"]]) ∧
    pyJoinNl (oursLines [Chunk.plain ["x"], Chunk.confl "a" ["c1", "c2"] none ["i1"] "b",
      Chunk.plain ["y"]]) = "x\nc1\nc2\ny" :=
  ⟨by decide, by decide,
    (C1_keep_current_round_trip idleEnv "f.txt"
      [Chunk.plain ["x"], Chunk.confl "a" ["c1", "c2"] none ["i1"] "b", Chunk.plain ["y"]]
      (by decide) (by decide)).2.1,
    by decide⟩

/-- C9 (confirmed).  For every diff3-style conflict block — one with a base
marker line between the begin marker and the separator — the parser produces
a `ConflictRegion` whose `base_content` holds exactly the lines between the
base marker and the separator, whose `current_content` and
`incoming_content` hold exactly their own sections (so no base line
occurrence is assigned to either), and the base marker line itself appears
in neither `current_content` nor `incoming_content`. -/
theorem C9_diff3_base_parsing (fp : String) (pre post : List String) (cl bl il : String)
    (cur bs inc : List String)
    (hcur : ∀ l ∈ cur, markerClean l = true)
    (hbs : ∀ l ∈ bs, markerClean l = true)
    (hinc : ∀ l ∈ inc, markerClean l = true) :
    (ConflictParser.parse_single_conflict
        (pre ++ renderChunk (.confl cl cur (some (bl, bs)) inc il) ++ post)
        pre.length fp).base_content = bs ∧
    (ConflictParser.parse_single_conflict
        (pre ++ renderChunk (.confl cl cur (some (bl, bs)) inc il) ++ post)
        pre.length fp).current_content = cur ∧
    (ConflictParser.parse_single_conflict
        (pre ++ renderChunk (.confl cl cur (some (bl, bs)) inc il) ++ post)
        pre.length fp).incoming_content = inc ∧
    ("||||||| " ++ bl) ∉ (ConflictParser.parse_single_conflict
        (pre ++ renderChunk (.confl cl cur (some (bl, bs)) inc il) ++ post)
        pre.length fp).current_content ∧
    ("||||||| " ++ bl) ∉ (ConflictParser.parse_single_conflict
        (pre ++ renderChunk (.confl cl cur (some (bl, bs)) inc il) ++ post)
        pre.length fp).incoming_content := by
  have hr := parse_single_render fp pre post cl il cur inc (some (bl, bs))
    (fun l hl => ⟨(markerClean_starts (hcur l hl)).2.1, (markerClean_starts (hcur l hl)).2.2.1⟩)
    (fun l hl => (markerClean_starts (hbs l (by simpa [baseContentOf] using hl))).2.1)
    (fun l hl => (markerClean_starts (hinc l hl)).2.2.2)
  rw [hr]
  have hmark : pyStartsWith ("||||||| " ++ bl) "|||||||" = true :=
    pyStartsWith_append bl (by decide)
  refine ⟨rfl, rfl, rfl, ?_, ?_⟩
  · intro hmem
    have := (markerClean_starts (hcur _ hmem)).2.2.1
    rw [hmark] at this
    exact absurd this (by decide)
  · intro hmem
    have := (markerClean_starts (hinc _ hmem)).2.2.1
    rw [hmark] at this
    exact absurd this (by decide)

/-- C9 witness: a concrete diff3 conflict block with context lines. -/
theorem C9_diff3_base_parsing_witness :
    (ConflictParser.parse_single_conflict
        (["p"] ++ renderChunk (.confl "a" ["c"] (some ("m", ["base1", "base2"])) ["i"] "z")
          ++ ["q"]) 1 "f.py").base_content = ["base1", "base2"] ∧
    (ConflictParser.parse_single_conflict
        (["p"] ++ renderChunk (.confl "a" ["c"] (some ("m", ["base1", "base2"])) ["i"] "z")
          ++ ["q"]) 1 "f.py").current_content = ["c"] ∧
    (ConflictParser.parse_single_conflict
        (["p"] ++ renderChunk (.confl "a" ["c"] (some ("m", ["base1", "base2"])) ["i"] "z")
          ++ ["q"]) 1 "f.py").incoming_content = ["i"] ∧
    ("||||||| " ++ "m") ∉ (ConflictParser.parse_single_conflict
        (["p"] ++ renderChunk (.confl "a" ["c"] (some ("m", ["base1", "base2"])) ["i"] "z")
          ++ ["q"]) 1 "f.py").current_content ∧
    ("||||||| " ++ "m") ∉ (ConflictParser.parse_single_conflict
        (["p"] ++ renderChunk (.confl "a" ["c"] (some ("m", ["base1", "base2"])) ["i"] "z")
          ++ ["q"]) 1 "f.py").incoming_content :=
  C9_diff3_base_parsing "f.py" ["p"] ["q"] "a" "m" "z" ["c"] ["base1", "base2"] ["i"]
    (by decide) (by decide) (by decide)

/-- C10 (confirmed).  For every input text that opens a conflict (optionally
with a separator) but never closes it — no `'>>>>>>>'` end marker before
end-of-file — the parser does not fail: `_parse_content` returns exactly one
`ConflictRegion`, whose `end_line` equals the total number of lines (one
past the last line index), whose `incoming_branch` is the default label
`'MERGE_HEAD'`, and whose `incoming_content` absorbs every line after the
separator (or after the current side, if there is no separator — in which
case the current side runs to end-of-file and `incoming_content` is empty)
up to end-of-file. -/
theorem C10_unterminated_conflict (fp : String) (pre : List String) (cl : String)
    (cur inc : List String) (hasSep : Bool)
    (hpre : ∀ l ∈ pre, pyStartsWith l "<<<<<<<" = false ∧ noNl l = true)
    (hcl : noNl cl = true)
    (hcur : ∀ l ∈ cur, pyStartsWith l "=======" = false ∧ pyStartsWith l "|||||||" = false
      ∧ noNl l = true)
    (hinc : ∀ l ∈ inc, pyStartsWith l ">>>>>>>" = false ∧ noNl l = true)
    (hns : hasSep = false → inc = []) :
    ConflictParser.parse_content
        (pyJoinNl (pre ++ ("<<<<<<< " ++ cl)
          :: (cur ++ (if hasSep then "=======" :: inc else [])))) fp
      = [ConflictParser.parse_single_conflict
          (pre ++ ("<<<<<<< " ++ cl) :: (cur ++ (if hasSep then "=======" :: inc else [])))
          pre.length fp] ∧
    (ConflictParser.parse_single_conflict
        (pre ++ ("<<<<<<< " ++ cl) :: (cur ++ (if hasSep then "=======" :: inc else [])))
        pre.length fp).end_line
      = (pre ++ ("<<<<<<< " ++ cl)
          :: (cur ++ (if hasSep then "=======" :: inc else []))).length ∧
    (ConflictParser.parse_single_conflict
        (pre ++ ("<<<<<<< " ++ cl) :: (cur ++ (if hasSep then "=======" :: inc else [])))
        pre.length fp).incoming_branch = "MERGE_HEAD" ∧
    (ConflictParser.parse_single_conflict
        (pre ++ ("<<<<<<< " ++ cl) :: (cur ++ (if hasSep then "=======" :: inc else [])))
        pre.length fp).incoming_content = inc ∧
    (ConflictParser.parse_single_conflict
        (pre ++ ("<<<<<<< " ++ cl) :: (cur ++ (if hasSep then "=======" :: inc else [])))
        pre.length fp).current_content = cur := by
  set tail := if hasSep then "=======" :: inc else [] with htail
  set L := pre ++ ("<<<<<<< " ++ cl) :: (cur ++ tail) with hLdef
  -- the parsed single conflict
  have hcc : takeUntil (fun l => pyStartsWith l "=======" || pyStartsWith l "|||||||")
      L (pre.length + 1) = cur := by
    refine takeUntil_flat _ (pre ++ ["<<<<<<< " ++ cl]) cur tail (by simp [hLdef]) (by simp)
      (fun l hl => by simp [(hcur l hl).1, (hcur l hl).2.1]) ?_
    intro x xs hx
    cases hasSep with
    | false => rw [htail] at hx; simp at hx
    | true =>
      rw [htail] at hx
      simp only [if_true] at hx
      injection hx with h1 _
      subst h1
      decide
  have hlen : L.length = pre.length + 1 + cur.length + tail.length := by
    rw [hLdef]
    simp
    omega
  have hsingle : ConflictParser.parse_single_conflict L pre.length fp
      = { file_path := fp
          start_line := pre.length
          end_line := L.length
          current_branch := pyStrip (pyReplace ("<<<<<<< " ++ cl) "<<<<<<< " "")
          incoming_branch := "MERGE_HEAD"
          current_content := cur
          incoming_content := inc
          base_content := [] } := by
    have h0 : L.getD pre.length "" = "<<<<<<< " ++ cl :=
      getD_flat pre ("<<<<<<< " ++ cl) (cur ++ tail) "" (by simp [hLdef]) rfl
    cases hasSep with
    | true =>
      have htail2 : tail = "=======" :: inc := by rw [htail]; simp
      have hgd1 : L.getD (pre.length + 1 + cur.length) "" = "=======" :=
        getD_flat (pre ++ ("<<<<<<< " ++ cl) :: cur) "=======" inc ""
          (by rw [hLdef, htail2]; simp) (by simp; omega)
      have hic : takeUntil (fun l => pyStartsWith l ">>>>>>>")
          L (pre.length + 1 + cur.length + 1) = inc := by
        refine takeUntil_flat _ (pre ++ ("<<<<<<< " ++ cl) :: cur ++ ["======="]) inc []
          (by rw [hLdef, htail2]; simp) (by simp; omega)
          (fun l hl => (hinc l hl).1) (by intro x xs hx; simp at hx)
      have hnb : ¬ (pre.length + 1 + cur.length < L.length ∧
          pyStartsWith (L.getD (pre.length + 1 + cur.length) "") "|||||||" = true) := by
        rw [hgd1]
        intro hand
        exact absurd hand.2 (by decide)
      simp only [ConflictParser.parse_single_conflict, hcc, h0]
      rw [if_neg hnb, if_neg hnb]
      rw [if_pos (show pre.length + 1 + cur.length < L.length ∧
          pyStartsWith (L.getD (pre.length + 1 + cur.length) "") "=======" = true from
        ⟨by rw [hlen, htail2]; simp, by rw [hgd1]; decide⟩)]
      rw [hic]
      rw [if_neg (show ¬ (pre.length + 1 + cur.length + 1 + inc.length < L.length ∧
          pyStartsWith (L.getD (pre.length + 1 + cur.length + 1 + inc.length) "")
            ">>>>>>>" = true) by
        intro hand
        have := hand.1
        rw [hlen, htail2] at this
        simp at this
        omega)]
      have harith : pre.length + 1 + cur.length + 1 + inc.length = L.length := by
        rw [hlen, htail2]
        simp
        omega
      rw [harith]
    | false =>
      have htail2 : tail = [] := by rw [htail]; simp
      have hinc2 : inc = [] := hns rfl
      have hcc2 : takeUntil (fun l => pyStartsWith l "=======" || pyStartsWith l "|||||||")
          L (pre.length + 1) = cur := hcc
      have hi1len : pre.length + 1 + cur.length = L.length := by
        rw [hlen, htail2]
        simp
      have hic : takeUntil (fun l => pyStartsWith l ">>>>>>>") L (pre.length + 1 + cur.length)
          = [] := by
        refine takeUntil_flat _ (pre ++ ("<<<<<<< " ++ cl) :: cur) [] []
          (by rw [hLdef, htail2]; simp) (by simp; omega) (by simp) (by intro x xs hx; simp at hx)
      have hnb : ¬ (pre.length + 1 + cur.length < L.length ∧
          pyStartsWith (L.getD (pre.length + 1 + cur.length) "") "|||||||" = true) := by
        intro hand
        have := hand.1
        omega
      have hns2 : ¬ (pre.length + 1 + cur.length < L.length ∧
          pyStartsWith (L.getD (pre.length + 1 + cur.length) "") "=======" = true) := by
        intro hand
        have := hand.1
        omega
      simp only [ConflictParser.parse_single_conflict, hcc2, h0]
      rw [if_neg hnb, if_neg hnb, if_neg hns2]
      rw [hic]
      rw [if_neg (show ¬ (pre.length + 1 + cur.length + List.length [] < L.length ∧
          pyStartsWith (L.getD (pre.length + 1 + cur.length + List.length []) "")
            ">>>>>>>" = true) by
        intro hand
        have := hand.1
        simp at this
        omega)]
      rw [hinc2]
      have harith : pre.length + 1 + cur.length + List.length ([] : List String)
          = L.length := by
        simp
        omega
      rw [harith]
  -- whole-text parse
  have hnoNl : ∀ l ∈ L, noNl l = true := by
    intro l hl
    rw [hLdef] at hl
    rcases List.mem_append.mp hl with hp | hl2
    · exact (hpre l hp).2
    · rcases List.mem_cons.mp hl2 with rfl | hl3
      · exact noNl_append (by decide) hcl
      · rcases List.mem_append.mp hl3 with hc | ht
        · exact (hcur l hc).2.2
        · cases hasSep with
          | false => rw [htail] at ht; simp at ht
          | true =>
            rw [htail] at ht
            simp only [if_true] at ht
            rcases List.mem_cons.mp ht with rfl | hi
            · decide
            · exact (hinc l hi).2
  have hLne : L ≠ [] := by
    rw [hLdef]
    simp
  have hsplitL : pySplitNl (pyJoinNl L) = L := pySplitNl_pyJoinNl L hLne hnoNl
  have hparse : ConflictParser.parse_content (pyJoinNl L) fp
      = [ConflictParser.parse_single_conflict L pre.length fp] := by
    unfold ConflictParser.parse_content
    rw [hsplitL]
    obtain ⟨f2, hf⟩ : ∃ f2, L.length = pre.length + f2 := by
      refine ⟨L.length - pre.length, ?_⟩
      rw [hlen]
      omega
    rw [hf]
    have hskip := parseLoop_skip fp L pre []
      (("<<<<<<< " ++ cl) :: (cur ++ tail)) f2 (by rw [hLdef]; simp)
      (fun l hl => (hpre l hl).1)
    simp only [List.length_nil, Nat.zero_add] at hskip
    rw [hskip]
    obtain ⟨f3, hf3⟩ : ∃ f3, f2 = f3 + 1 := by
      refine ⟨f2 - 1, ?_⟩
      rw [hlen] at hf
      omega
    rw [hf3]
    rw [ConflictParser.parseLoop]
    rw [if_pos (show pre.length < L.length by rw [hlen]; omega)]
    rw [getD_flat pre ("<<<<<<< " ++ cl) (cur ++ tail) "" (by rw [hLdef]) rfl]
    rw [pyStartsWith_append cl (by decide)]
    simp only [if_true]
    congr 1
    rw [hsingle]
    exact parseLoop_at_end fp L f3 (L.length + 1) (by omega)
  refine ⟨?_, by rw [hsingle], by rw [hsingle], by rw [hsingle], by rw [hsingle]⟩
  show ConflictParser.parse_content (pyJoinNl L) fp = _
  rw [hparse]

/-- C10 witness: `"a"` then an unterminated conflict with a separator whose
incoming side runs to end-of-file. -/
theorem C10_unterminated_conflict_witness :
    ConflictParser.parse_content (pyJoinNl (["a"] ++ ("<<<<<<< " ++ "x")
          :: (["c"] ++ (if true then "=======" :: ["i1", "i2"] else [])))) "f.txt"
      = [ConflictParser.parse_single_conflict
          (["a"] ++ ("<<<<<<< " ++ "x") :: (["c"] ++ (if true then "======="
            :: ["i1", "i2"] else []))) (List.length ["a"]) "f.txt"] ∧
    (ConflictParser.parse_single_conflict
        (["a"] ++ ("<<<<<<< " ++ "x") :: (["c"] ++ (if true then "======="
          :: ["i1", "i2"] else []))) (List.length ["a"]) "f.txt").end_line
      = (["a"] ++ ("<<<<<<< " ++ "x") :: (["c"] ++ (if true then "======="
          :: ["i1", "i2"] else []))).length ∧
    (ConflictParser.parse_single_conflict
        (["a"] ++ ("<<<<<<< " ++ "x") :: (["c"] ++ (if true then "======="
          :: ["i1", "i2"] else []))) (List.length ["a"]) "f.txt").incoming_branch
      = "MERGE_HEAD" ∧
    (ConflictParser.parse_single_conflict
        (["a"] ++ ("<<<<<<< " ++ "x") :: (["c"] ++ (if true then "======="
          :: ["i1", "i2"] else []))) (List.length ["a"]) "f.txt").incoming_content
      = ["i1", "i2"] ∧
    (ConflictParser.parse_single_conflict
        (["a"] ++ ("<<<<<<< " ++ "x") :: (["c"] ++ (if true then "======="
          :: ["i1", "i2"] else []))) (List.length ["a"]) "f.txt").current_content
      = ["c"] :=
  C10_unterminated_conflict "f.txt" ["a"] "x" ["c"] ["i1", "i2"] true
    (by decide) (by decide) (by decide) (by decide) (by decide)

/-- C7 (counterexample to the claim as stated).  A file with two conflict
regions (these are exactly the regions its parse produces); supplying the
same (conflict, resolution) pairs to `apply_resolution`'s splice in
ascending `start_line` order versus swapped order yields different final
content: the cursor-based splice trusts the input order, and a swapped pair
makes the slice `lines[last:start]` empty while the earlier region's marker
block is copied verbatim. -/
theorem C7_permuted_pairs_counterexample :
    ConflictParser.parse_content
        "l0\n<<<<<<< a\nA\n=======\nB\n>>>>>>> b\nmid\n<<<<<<< a\nC\n=======\nD\n>>>>>>> b\ntail"
        "f.txt"
      = [{ file_path := "f.txt", start_line := 1, end_line := 5, current_branch := "a",
           incoming_branch := "b", current_content := ["A"], incoming_content := ["B"],
           base_content := [] },
         { file_path := "f.txt", start_line := 7, end_line := 11, current_branch := "a",
           incoming_branch := "b", current_content := ["C"], incoming_content := ["D"],
           base_content := [] }] ∧
    ConflictResolver.resolvedContent
        "l0\n<<<<<<< a\nA\n=======\nB\n>>>>>>> b\nmid\n<<<<<<< a\nC\n=======\nD\n>>>>>>> b\ntail"
        [{ file_path := "f.txt", start_line := 1, end_line := 5, current_branch := "a",
           incoming_branch := "b", current_content := ["A"], incoming_content := ["B"],
           base_content := [] },
         { file_path := "f.txt", start_line := 7, end_line := 11, current_branch := "a",
           incoming_branch := "b", current_content := ["C"], incoming_content := ["D"],
           base_content := [] }]
        ["A", "C"]
      ≠ ConflictResolver.resolvedContent
          "l0\n<<<<<<< a\nA\n=======\nB\n>>>>>>> b\nmid\n<<<<<<< a\nC\n=======\nD\n>>>>>>> b\ntail"
          [{ file_path := "f.txt", start_line := 7, end_line := 11, current_branch := "a",
             incoming_branch := "b", current_content := ["C"], incoming_content := ["D"],
             base_content := [] },
           { file_path := "f.txt", start_line := 1, end_line := 5, current_branch := "a",
             incoming_branch := "b", current_content := ["A"], incoming_content := ["B"],
             base_content := [] }]
          ["C", "A"] := by
  refine ⟨by decide, by decide⟩

/-- C7 (amended).  `apply_resolution`'s reconstruction depends on the order
in which the (conflict, resolution) pairs are supplied, not only on their
line positions: the cursor-based splice requires ascending `start_line`
order (the order the parser produces).  What survives of the claim is that
among ascending-order supplies the result is determined by the pairs alone:
two supplies of the same (conflict, resolution) pairs that are both
strictly ascending in `start_line` produce identical final content.  A
permutation that is not ascending can change the output (see the
counterexample). -/
theorem C7_splice_order (content : String)
    (conflicts1 conflicts2 : List ConflictRegion) (res1 res2 : List String)
    (hperm : (conflicts1.zip res1).Perm (conflicts2.zip res2))
    (hs1 : (conflicts1.zip res1).Sorted
      (fun p q => p.1.start_line < q.1.start_line))
    (hs2 : (conflicts2.zip res2).Sorted
      (fun p q => p.1.start_line < q.1.start_line)) :
    ConflictResolver.resolvedContent content conflicts1 res1
      = ConflictResolver.resolvedContent content conflicts2 res2 := by
  haveI : IsAntisymm (ConflictRegion × String)
      (fun p q => p.1.start_line < q.1.start_line) :=
    ⟨fun a b h1 h2 => absurd h2 (by omega)⟩
  have hzip : conflicts1.zip res1 = conflicts2.zip res2 :=
    List.eq_of_perm_of_sorted hperm hs1 hs2
  unfold ConflictResolver.resolvedContent
  rw [hzip]

/-- C7 witness: the two-conflict pair list of the counterexample file, in
ascending order on both sides. -/
theorem C7_splice_order_witness :
    ConflictResolver.resolvedContent
        "l0\n<<<<<<< a\nA\n=======\nB\n>>>>>>> b\nmid\n<<<<<<< a\nC\n=======\nD\n>>>>>>> b\ntail"
        [{ file_path := "f.txt", start_line := 1, end_line := 5, current_branch := "a",
           incoming_branch := "b", current_content := ["A"], incoming_content := ["B"],
           base_content := [] },
         { file_path := "f.txt", start_line := 7, end_line := 11, current_branch := "a",
           incoming_branch := "b", current_content := ["C"], incoming_content := ["D"],
           base_content := [] }]
        ["A", "C"]
      = ConflictResolver.resolvedContent
          "l0\n<<<<<<< a\nA\n=======\nB\n>>>>>>> b\nmid\n<<<<<<< a\nC\n=======\nD\n>>>>>>> b\ntail"
          [{ file_path := "f.txt", start_line := 1, end_line := 5, current_branch := "a",
             incoming_branch := "b", current_content := ["A"], incoming_content := ["B"],
             base_content := [] },
           { file_path := "f.txt", start_line := 7, end_line := 11, current_branch := "a",
             incoming_branch := "b", current_content := ["C"], incoming_content := ["D"],
             base_content := [] }]
          ["A", "C"] :=
  C7_splice_order _ _ _ _ _ (by decide) (by decide) (by decide)

/-- C8 (confirmed).  `SyntaxValidator.validate` performs the full-file
compile-without-execute check exactly when the file extension, compared
lower-cased, is `'.py'`: it then returns `validate_python`'s verdict — a
candidate on which `compile` raises `SyntaxError` is flagged invalid with
the exception's 1-based line number and message (`'Line {lineno}: {msg}'`),
and a candidate that compiles passes.  For every other extension the
compiler is never consulted (the verdict is the same for every compile
oracle) and the candidate is valid iff it is non-empty after stripping
whitespace. -/
theorem C8_validator_dispatch (pc : String → PyCompileResult) (fp code : String) :
    (pyLower (splitextExt fp) = ".py" →
      SyntaxValidator.validate pc fp code = SyntaxValidator.validate_python pc code ∧
      (∀ lineno msg, pc code = .syntaxErr lineno msg →
        SyntaxValidator.validate pc fp code
          = (false, some ("Line " ++ toString lineno ++ ": " ++ msg))) ∧
      (pc code = .ok → SyntaxValidator.validate pc fp code = (true, none))) ∧
    (pyLower (splitextExt fp) ≠ ".py" →
      (∀ pc2 : String → PyCompileResult,
        SyntaxValidator.validate pc2 fp code = SyntaxValidator.validate pc fp code) ∧
      ((SyntaxValidator.validate pc fp code).1 = true ↔ pyStrip code ≠ "") ∧
      (pyStrip code = "" →
        SyntaxValidator.validate pc fp code = (false, some "Resolved content is empty"))) := by
  constructor
  · intro hext
    unfold SyntaxValidator.validate
    rw [if_pos hext]
    refine ⟨rfl, ?_, ?_⟩
    · intro lineno msg hpc
      unfold SyntaxValidator.validate_python
      rw [hpc]
    · intro hpc
      unfold SyntaxValidator.validate_python
      rw [hpc]
  · intro hext
    unfold SyntaxValidator.validate
    rw [if_neg hext]
    refine ⟨fun pc2 => by simp only [SyntaxValidator.validate, if_neg hext], ?_, ?_⟩
    · by_cases hc : pyStrip code = ""
      · rw [if_pos hc]
        simp [hc]
      · rw [if_neg hc]
        simp [hc]
    · intro hc
      rw [if_pos hc]

/-- C8 witness: the extension check is case-insensitive (`'A.PY'` uses the
compiler, which rejects `'('` at line 1); a `.txt` path never consults the
compiler and fails exactly on whitespace-only candidates. -/
theorem C8_validator_dispatch_witness :
    pyLower (splitextExt "A.PY") = ".py" ∧
    SyntaxValidator.validate
        (fun c => if c = "(" then .syntaxErr 1 "unexpected EOF" else .ok) "A.PY" "("
      = (false, some ("Line " ++ toString 1 ++ ": " ++ "unexpected EOF")) ∧
    pyLower (splitextExt "notes.txt") ≠ ".py" ∧
    SyntaxValidator.validate
        (fun c => if c = "(" then .syntaxErr 1 "unexpected EOF" else .ok) "notes.txt" "  "
      = (false, some "Resolved content is empty") :=
  ⟨by decide,
    ((C8_validator_dispatch
      (fun c => if c = "(" then .syntaxErr 1 "unexpected EOF" else .ok) "A.PY" "(").1
      (by decide)).2.1 1 "unexpected EOF" (by decide),
    by decide,
    ((C8_validator_dispatch
      (fun c => if c = "(" then .syntaxErr 1 "unexpected EOF" else .ok) "notes.txt" "  ").2
      (by decide)).2.2 (by decide)⟩

/-- When the validator rejects every fix-attempt candidate, the retry loop
runs its full budget: the final `retry_count` is the initial one plus the
retries remaining, and the candidate is still invalid. -/
theorem fixLoopGo_all_invalid (env : Env) (conflict : ConflictRegion) (file_ext : String)
    (hfix : ∀ broken err, (SyntaxValidator.validate env.pyCompile conflict.file_path
      (IntelligentMerger.fix_syntax_error env conflict broken err file_ext)).1 = false) :
    ∀ (remaining : Nat) (merged : String) (err : Option String) (retry : Nat),
      (IntelligentMerger.fixLoopGo env conflict file_ext remaining merged false err
        retry).2.1 = false ∧
      (IntelligentMerger.fixLoopGo env conflict file_ext remaining merged false err
        retry).2.2 = retry + remaining := by
  intro remaining
  induction remaining with
  | zero => intro merged err retry; exact ⟨rfl, rfl⟩
  | succ r ih =>
    intro merged err retry
    have hv : (SyntaxValidator.validate env.pyCompile conflict.file_path
        (IntelligentMerger.fix_syntax_error env conflict merged err file_ext)).1 = false :=
      hfix merged err
    simp only [IntelligentMerger.fixLoopGo, Bool.false_eq_true, if_false]
    rw [hv]
    have := ih (IntelligentMerger.fix_syntax_error env conflict merged err file_ext)
      (SyntaxValidator.validate env.pyCompile conflict.file_path
        (IntelligentMerger.fix_syntax_error env conflict merged err file_ext)).2 (retry + 1)
    refine ⟨this.1, ?_⟩
    rw [this.2]
    omega

/-- C3 (confirmed).  If the merge oracle produces a (non-empty) initial
candidate that the validator rejects, and the validator rejects every
fix-attempt candidate, then `IntelligentMerger.merge_both` performs exactly
`max_retries` fix attempts — the final value of the source's `retry_count`,
exposed by `merge_bothCounted` — and returns with `is_valid = false`.  The
embedding is a total function returning a plain pair, so the loop
terminates on every input and failure is signalled only through the
returned boolean; `ConflictResolver.resolve` invokes `merge_both` with the
source's default `max_retries = 2`. -/
theorem C3_retry_bound (env : Env) (conflict : ConflictRegion) (analysis : String)
    (max_retries : Nat) (t : String)
    (hresp : env.mergerLlm (IntelligentMerger.mergePrompt conflict analysis) = .ok t)
    (hne : pyStrip t ≠ "")
    (hinit : (SyntaxValidator.validate env.pyCompile conflict.file_path
      (IntelligentMerger.clean_output (pyStrip t))).1 = false)
    (hfix : ∀ broken err, (SyntaxValidator.validate env.pyCompile conflict.file_path
      (IntelligentMerger.fix_syntax_error env conflict broken err
        (splitextExt conflict.file_path))).1 = false) :
    (IntelligentMerger.merge_bothCounted env conflict analysis max_retries).2
      = max_retries ∧
    (IntelligentMerger.merge_both env conflict analysis max_retries).2 = false ∧
    ConflictResolver.resolve env conflict .both analysis
      = .ok (IntelligentMerger.merge_both env conflict analysis 2) := by
  have ht : t ≠ "" := by
    intro h
    exact hne (by rw [h]; rfl)
  have hcounted : ∀ n : Nat,
      (IntelligentMerger.merge_bothCounted env conflict analysis n).2 = n ∧
      (IntelligentMerger.merge_bothCounted env conflict analysis n).1.2 = false := by
    intro n
    simp only [IntelligentMerger.merge_bothCounted, hresp]
    rw [if_neg ht, if_neg hne]
    simp only [IntelligentMerger.fixLoop]
    rcases hval : SyntaxValidator.validate env.pyCompile conflict.file_path
        (IntelligentMerger.clean_output (pyStrip t)) with ⟨b, o⟩
    rw [hval] at hinit
    simp only at hinit
    subst hinit
    have hgo := fixLoopGo_all_invalid env conflict (splitextExt conflict.file_path) hfix
      (n - 0) (IntelligentMerger.clean_output (pyStrip t)) o 0
    exact ⟨by rw [hgo.2]; omega, hgo.1⟩
  exact ⟨(hcounted max_retries).1, (hcounted max_retries).2, rfl⟩

/-- C3 witness: an oracle that always answers `'('` for a `.py` file whose
compiler rejects everything; with `max_retries = 2`, exactly two fix
attempts are made and the result is flagged invalid. -/
theorem C3_retry_bound_witness :
    (IntelligentMerger.merge_bothCounted
      { analyzerLlm := fun _ => .error "offline"
        mergerLlm := fun _ => .ok "("
        pyCompile := fun _ => .syntaxErr 1 "bad"
        gitAddOk := fun _ => true }
      { file_path := "a.py", start_line := 0, end_line := 4, current_branch := "a",
        incoming_branch := "b", current_content := ["return 1"],
        incoming_content := ["return 2"], base_content := [] } "" 2).2 = 2 ∧
    (IntelligentMerger.merge_both
      { analyzerLlm := fun _ => .error "offline"
        mergerLlm := fun _ => .ok "("
        pyCompile := fun _ => .syntaxErr 1 "bad"
        gitAddOk := fun _ => true }
      { file_path := "a.py", start_line := 0, end_line := 4, current_branch := "a",
        incoming_branch := "b", current_content := ["return 1"],
        incoming_content := ["return 2"], base_content := [] } "" 2).2 = false := by
  have h := C3_retry_bound
    { analyzerLlm := fun _ => .error "offline"
      mergerLlm := fun _ => .ok "("
      pyCompile := fun _ => .syntaxErr 1 "bad"
      gitAddOk := fun _ => true }
    { file_path := "a.py", start_line := 0, end_line := 4, current_branch := "a",
      incoming_branch := "b", current_content := ["return 1"],
      incoming_content := ["return 2"], base_content := [] } "" 2 "("
    rfl (by decide) (by decide) (fun broken err => by
      have hext : pyLower (splitextExt "a.py") = ".py" := by decide
      simp [SyntaxValidator.validate, hext, SyntaxValidator.validate_python])
  exact ⟨h.1, h.2.1⟩

/-- C4 (counterexample to the claim as stated).  An oracle whose merge call
answers `'('` (rejected by the compiler) but whose fix calls — prompts
starting `'The following merged code'` — raise: a fix-attempt oracle call
fails during `merge_both`, yet the function returns the broken candidate
`'('` rather than the incoming side's text `'return 2'`: the claim fails
for fix-stage failures, because `_fix_syntax_error` catches its own
exception and returns `broken_code`, after which the loop simply
continues. -/
theorem C4_fix_stage_counterexample :
    ({ analyzerLlm := fun _ => .error "offline"
       mergerLlm := fun p =>
         if pyStartsWith p "The following merged code" then .error "oracle down"
         else .ok "("
       pyCompile := fun code => if code = "(" then .syntaxErr 1 "unexpected EOF" else .ok
       gitAddOk := fun _ => true : Env }).mergerLlm
        (IntelligentMerger.fixPrompt
          { file_path := "a.py", start_line := 0, end_line := 4, current_branch := "a",
            incoming_branch := "b", current_content := ["return 1"],
            incoming_content := ["return 2"], base_content := [] }
          "(" (some "Line 1: unexpected EOF") (splitextExt "a.py"))
      = .error "oracle down" ∧
    IntelligentMerger.merge_both
        { analyzerLlm := fun _ => .error "offline"
          mergerLlm := fun p =>
            if pyStartsWith p "The following merged code" then .error "oracle down"
            else .ok "("
          pyCompile := fun code => if code = "(" then .syntaxErr 1 "unexpected EOF" else .ok
          gitAddOk := fun _ => true }
        { file_path := "a.py", start_line := 0, end_line := 4, current_branch := "a",
          incoming_branch := "b", current_content := ["return 1"],
          incoming_content := ["return 2"], base_content := [] } "" 2
      = ("(", false) ∧
    ConflictRegion.incoming_text
        { file_path := "a.py", start_line := 0, end_line := 4, current_branch := "a",
          incoming_branch := "b", current_content := ["return 1"],
          incoming_content := ["return 2"], base_content := [] }
      = "return 2" ∧
    (("(", false) : String × Bool) ≠ ("return 2", false) :=
  ⟨rfl, by decide, by decide, by decide⟩

/-- C4 (amended).  If the external oracle call fails (raises) at the
*initial* merge stage, `merge_both` returns the conflict's incoming side's
text verbatim paired with validity false.  A failure of a *fix-attempt*
call, however, is caught inside `_fix_syntax_error`, which returns the
broken candidate unchanged; the retry loop then continues, and `merge_both`
returns its last candidate with its validity flag — not necessarily the
incoming text (see the counterexample). -/
theorem C4_oracle_error_fallback (env : Env) (conflict : ConflictRegion)
    (analysis broken : String) (err : Option String) (file_ext : String)
    (max_retries : Nat) :
    (∀ e, env.mergerLlm (IntelligentMerger.mergePrompt conflict analysis) = .error e →
      IntelligentMerger.merge_both env conflict analysis max_retries
        = (conflict.incoming_text, false)) ∧
    (∀ e, env.mergerLlm (IntelligentMerger.fixPrompt conflict broken err file_ext)
        = .error e →
      IntelligentMerger.fix_syntax_error env conflict broken err file_ext = broken) := by
  constructor
  · intro e h
    simp [IntelligentMerger.merge_both, IntelligentMerger.merge_bothCounted, h]
  · intro e h
    simp [IntelligentMerger.fix_syntax_error, h]

/-- C4 witness: with the quiescent environment every oracle call raises, so
the initial merge call falls back to the incoming text and a fix call
returns its broken input. -/
theorem C4_oracle_error_fallback_witness :
    IntelligentMerger.merge_both idleEnv
        { file_path := "a.py", start_line := 0, end_line := 4, current_branch := "a",
          incoming_branch := "b", current_content := ["return 1"],
          incoming_content := ["return 2"], base_content := [] } "" 2
      = (ConflictRegion.incoming_text
          { file_path := "a.py", start_line := 0, end_line := 4, current_branch := "a",
            incoming_branch := "b", current_content := ["return 1"],
            incoming_content := ["return 2"], base_content := [] }, false) ∧
    IntelligentMerger.fix_syntax_error idleEnv
        { file_path := "a.py", start_line := 0, end_line := 4, current_branch := "a",
          incoming_branch := "b", current_content := ["return 1"],
          incoming_content := ["return 2"], base_content := [] }
        "x = (" none ".py"
      = "x = (" :=
  ⟨(C4_oracle_error_fallback idleEnv
      { file_path := "a.py", start_line := 0, end_line := 4, current_branch := "a",
        incoming_branch := "b", current_content := ["return 1"],
        incoming_content := ["return 2"], base_content := [] }
      "" "x = (" none ".py" 2).1 "offline" rfl,
    (C4_oracle_error_fallback idleEnv
      { file_path := "a.py", start_line := 0, end_line := 4, current_branch := "a",
        incoming_branch := "b", current_content := ["return 1"],
        incoming_content := ["return 2"], base_content := [] }
      "" "x = (" none ".py" 2).2 "offline" rfl⟩

/-- C5 (confirmed).  For every strategy string whose lower-cased value is
not one of the enum's values, `resolve_conflicts` returns an error result
whose message names the valid options, with the repository state unchanged
— no file read, modified, or staged; the placeholder `'interactive'` is
likewise rejected before any file is touched, with a guidance message
instead of the options list. -/
theorem C5_strategy_rejected_before_io (env : Env) (st : RepoState) (s : String) :
    (strategyOfString (pyLower s) = none →
      resolve_conflicts env s st
        = ({ status := "error", message := invalidStrategyMsg s, resolved := none,
             total := none, failedFiles := [] }, st) ∧
      invalidStrategyMsg s
        = "❌ Invalid strategy: " ++ s ++ "\nValid options: current, incoming, both") ∧
    (strategyOfString (pyLower s) = some .interactive →
      resolve_conflicts env s st
        = ({ status := "error", message := interactiveStrategyMsg, resolved := none,
             total := none, failedFiles := [] }, st) ∧
      interactiveStrategyMsg
        = "❌ Use get_merge_conflicts() first to see conflicts,\nthen choose: current, incoming, or both") := by
  constructor
  · intro h
    refine ⟨?_, rfl⟩
    simp [resolve_conflicts, h]
  · intro h
    refine ⟨?_, rfl⟩
    simp [resolve_conflicts, h]

/-- C5 witness: `'merge'` is rejected with the options list, `'Interactive'`
(note the lower-casing) with the guidance message; the repository state —
one conflicted file, nothing staged — is returned untouched in both
cases. -/
theorem C5_strategy_rejected_before_io_witness :
    resolve_conflicts idleEnv "merge" { files := [("f.py", "x")], staged := [] }
      = ({ status := "error", message := invalidStrategyMsg "merge", resolved := none,
           total := none, failedFiles := [] },
         { files := [("f.py", "x")], staged := [] }) ∧
    resolve_conflicts idleEnv "Interactive" { files := [("f.py", "x")], staged := [] }
      = ({ status := "error", message := interactiveStrategyMsg, resolved := none,
           total := none, failedFiles := [] },
         { files := [("f.py", "x")], staged := [] }) :=
  ⟨((C5_strategy_rejected_before_io idleEnv
      { files := [("f.py", "x")], staged := [] } "merge").1 (by decide)).1,
    ((C5_strategy_rejected_before_io idleEnv
      { files := [("f.py", "x")], staged := [] } "Interactive").2 (by decide)).1⟩

/-! ### The per-file pipeline inside `resolve_conflicts` -/

theorem collectResolutions_ok (env : Env) (strat : ResolutionStrategy)
    (h : strat ≠ ResolutionStrategy.interactive) :
    ∀ pairs : List (ConflictRegion × String),
      ∃ rs, collectResolutions env strat pairs = .ok rs := by
  intro pairs
  induction pairs with
  | nil => exact ⟨[], rfl⟩
  | cons p rest ih =>
    obtain ⟨c, a⟩ := p
    obtain ⟨rs, hrs⟩ := ih
    have hres : ∃ r, ConflictResolver.resolve env c strat a = .ok r := by
      cases strat with
      | interactive => exact absurd rfl h
      | current => exact ⟨_, rfl⟩
      | incoming => exact ⟨_, rfl⟩
      | both => exact ⟨_, rfl⟩
    obtain ⟨r, hr⟩ := hres
    refine ⟨r :: rs, ?_⟩
    simp [collectResolutions, hr, hrs]

theorem apply_resolution_spec (pc : String → PyCompileResult)
    (fp content : String) (conflicts : List ConflictRegion) (resolutions : List String) :
    (ConflictResolver.apply_resolution pc fp content conflicts resolutions).1.1
      = (SyntaxValidator.validate pc fp
          (ConflictResolver.resolvedContent content conflicts resolutions)).1 ∧
    (ConflictResolver.apply_resolution pc fp content conflicts resolutions).2
      = (if (SyntaxValidator.validate pc fp
            (ConflictResolver.resolvedContent content conflicts resolutions)).1
         then ConflictResolver.resolvedContent content conflicts resolutions
         else content) ∧
    ((SyntaxValidator.validate pc fp
        (ConflictResolver.resolvedContent content conflicts resolutions)).1 = false →
      (ConflictResolver.apply_resolution pc fp content conflicts resolutions).1
        = (false, some ("Final validation failed: "
            ++ (SyntaxValidator.validate pc fp
                (ConflictResolver.resolvedContent content conflicts resolutions)).2.getD
              "None"))) := by
  by_cases hv : (SyntaxValidator.validate pc fp
      (ConflictResolver.resolvedContent content conflicts resolutions)).1 = true
  · simp [ConflictResolver.apply_resolution, hv]
  · simp only [Bool.not_eq_true] at hv
    simp [ConflictResolver.apply_resolution, hv]

theorem processOneFile_spec (env : Env) (strat : ResolutionStrategy)
    (h : strat ≠ ResolutionStrategy.interactive) (fp content : String) :
    ∃ rs : List (String × Bool),
      processOneFile env strat fp content
        = { nConflicts := (ConflictParser.parse_content content fp).length
            success := (ConflictResolver.apply_resolution env.pyCompile fp content
              (ConflictParser.parse_content content fp) (rs.map Prod.fst)).1.1
            err := (ConflictResolver.apply_resolution env.pyCompile fp content
              (ConflictParser.parse_content content fp) (rs.map Prod.fst)).1.2
            newContent := (ConflictResolver.apply_resolution env.pyCompile fp content
              (ConflictParser.parse_content content fp) (rs.map Prod.fst)).2
            allValid := rs.all Prod.snd } := by
  obtain ⟨rs, hrs⟩ := collectResolutions_ok env strat h
    ((ConflictParser.parse_content content fp).zip
      (if strat = ResolutionStrategy.both then
        (ConflictParser.parse_content content fp).map
          (fun c => AIAnalyzer.analyze_conflict env c)
      else (ConflictParser.parse_content content fp).map (fun _ => "")))
  refine ⟨rs, ?_⟩
  simp only [processOneFile, hrs]

theorem processOneFile_success_validate (env : Env) (strat : ResolutionStrategy)
    (h : strat ≠ ResolutionStrategy.interactive) (fp content : String)
    (hsucc : (processOneFile env strat fp content).success = true) :
    (SyntaxValidator.validate env.pyCompile fp
      ((processOneFile env strat fp content).newContent)).1 = true := by
  obtain ⟨rs, hspec⟩ := processOneFile_spec env strat h fp content
  rw [hspec] at hsucc ⊢
  simp only at hsucc ⊢
  have has := apply_resolution_spec env.pyCompile fp content
    (ConflictParser.parse_content content fp) (rs.map Prod.fst)
  rw [has.1] at hsucc
  rw [has.2.1, if_pos hsucc]
  exact hsucc

theorem processFiles_spec (env : Env) (strat : ResolutionStrategy) :
    ∀ files : List (String × String),
      (processFiles env strat files).newlyStaged
        = files.filterMap (fun p =>
            if (processOneFile env strat p.1 p.2).success && env.gitAddOk p.1
            then some p.1 else none) ∧
      (processFiles env strat files).failedFiles
        = files.filterMap (fun p =>
            if (processOneFile env strat p.1 p.2).success then
              (if env.gitAddOk p.1 then none else some (p.1, "Failed to stage"))
            else some (p.1, (processOneFile env strat p.1 p.2).err.getD "None")) ∧
      (processFiles env strat files).outFiles
        = files.map (fun p => (p.1, (processOneFile env strat p.1 p.2).newContent)) := by
  intro files
  induction files with
  | nil => exact ⟨rfl, rfl, rfl⟩
  | cons p rest ih =>
    obtain ⟨fp, content⟩ := p
    obtain ⟨ih1, ih2, ih3⟩ := ih
    by_cases hs : (processOneFile env strat fp content).success = true
    · by_cases hg : env.gitAddOk fp = true
      · simp [processFiles, GitOperations.stage_file, hs, hg, ih1, ih2, ih3]
      · simp only [Bool.not_eq_true] at hg
        simp [processFiles, GitOperations.stage_file, hs, hg, ih1, ih2, ih3]
    · simp only [Bool.not_eq_true] at hs
      simp [processFiles, GitOperations.stage_file, hs, ih1, ih2, ih3]

theorem nodup_keys_eq {α β : Type} (l : List (α × β))
    (h : (l.map Prod.fst).Nodup) {a : α} {b c : β}
    (h1 : (a, b) ∈ l) (h2 : (a, c) ∈ l) : b = c := by
  induction l with
  | nil => simp at h1
  | cons p rest ih =>
    simp only [List.map_cons, List.nodup_cons] at h
    rcases List.mem_cons.mp h1 with rfl | h1r
    · rcases List.mem_cons.mp h2 with heq | h2r
      · exact ((Prod.mk.injEq _ _ _ _).mp heq).2.symm
      · exact absurd (List.mem_map.mpr ⟨(a, c), h2r, rfl⟩) h.1
    · rcases List.mem_cons.mp h2 with rfl | h2r
      · exact absurd (List.mem_map.mpr ⟨(a, b), h1r, rfl⟩) h.1
      · exact ih h.2 h1r h2r

/-- C2 (confirmed).  `apply_resolution` writes the reconstructed content to
disk if and only if the final whole-file `SyntaxValidator` check on the
assembled content passes; when it fails, it returns `(false, error)` and
the conflicted file's on-disk content is unchanged.  A per-conflict
`is_valid = false` flag from `resolve`/`merge` does not by itself prevent
the write: inside the per-file step of `resolve_conflicts`, the outcome is
exactly `apply_resolution`'s output on the collected resolution texts —
the per-conflict flags surface only in the advisory `all_valid` and never
gate the write. -/
theorem C2_write_gated_by_final_validation (pc : String → PyCompileResult)
    (fp content : String) (conflicts : List ConflictRegion)
    (resolutions : List String) :
    ((ConflictResolver.apply_resolution pc fp content conflicts resolutions).1.1 = true ↔
      (SyntaxValidator.validate pc fp
        (ConflictResolver.resolvedContent content conflicts resolutions)).1 = true) ∧
    (ConflictResolver.apply_resolution pc fp content conflicts resolutions).2
      = (if (SyntaxValidator.validate pc fp
            (ConflictResolver.resolvedContent content conflicts resolutions)).1
         then ConflictResolver.resolvedContent content conflicts resolutions
         else content) ∧
    ((SyntaxValidator.validate pc fp
        (ConflictResolver.resolvedContent content conflicts resolutions)).1 = false →
      (ConflictResolver.apply_resolution pc fp content conflicts resolutions).1
        = (false, some ("Final validation failed: "
            ++ (SyntaxValidator.validate pc fp
                (ConflictResolver.resolvedContent content conflicts resolutions)).2.getD
              "None")) ∧
      (ConflictResolver.apply_resolution pc fp content conflicts resolutions).2
        = content) ∧
    (∀ (env : Env) (strat : ResolutionStrategy), env.pyCompile = pc →
      strat ≠ ResolutionStrategy.interactive →
      ∃ rs : List (String × Bool),
        processOneFile env strat fp content
          = { nConflicts := (ConflictParser.parse_content content fp).length
              success := (ConflictResolver.apply_resolution pc fp content
                (ConflictParser.parse_content content fp) (rs.map Prod.fst)).1.1
              err := (ConflictResolver.apply_resolution pc fp content
                (ConflictParser.parse_content content fp) (rs.map Prod.fst)).1.2
              newContent := (ConflictResolver.apply_resolution pc fp content
                (ConflictParser.parse_content content fp) (rs.map Prod.fst)).2
              allValid := rs.all Prod.snd }) := by
  have has := apply_resolution_spec pc fp content conflicts resolutions
  refine ⟨by rw [has.1], has.2.1, ?_, ?_⟩
  · intro hv
    refine ⟨has.2.2 hv, ?_⟩
    rw [has.2.1, if_neg (by rw [hv]; simp)]
  · intro env strat hpc hni
    subst hpc
    exact processOneFile_spec env strat hni fp content

/-- C2 witness.  A compiler that rejects everything: `apply_resolution`
returns `(false, Final validation failed: …)` and leaves the disk content
`"x"` untouched; and with the `both` strategy on a `.txt` file whose
oracle answers emptily, the per-conflict resolution is flagged invalid
(`allValid = false`) yet the whole-file check passes and the reconstruction
is still written. -/
theorem C2_write_gated_by_final_validation_witness :
    (ConflictResolver.apply_resolution (fun _ => .syntaxErr 1 "bad") "w.py" "x" [] []).1
      = (false, some ("Final validation failed: "
          ++ ((SyntaxValidator.validate (fun _ => .syntaxErr 1 "bad") "w.py"
              (ConflictResolver.resolvedContent "x" [] [])).2.getD "None"))) ∧
    (ConflictResolver.apply_resolution (fun _ => .syntaxErr 1 "bad") "w.py" "x" [] []).2
      = "x" ∧
    (∃ rs : List (String × Bool),
      processOneFile
          { analyzerLlm := fun _ => .error "offline"
            mergerLlm := fun _ => .ok ""
            pyCompile := fun _ => .syntaxErr 1 "bad"
            gitAddOk := fun _ => true }
          ResolutionStrategy.both "w.txt" "a\n<<<<<<< x\nk\n=======\nm\n>>>>>>> y\nb"
        = { nConflicts := (ConflictParser.parse_content
              "a\n<<<<<<< x\nk\n=======\nm\n>>>>>>> y\nb" "w.txt").length
            success := (ConflictResolver.apply_resolution (fun _ => .syntaxErr 1 "bad")
              "w.txt" "a\n<<<<<<< x\nk\n=======\nm\n>>>>>>> y\nb"
              (ConflictParser.parse_content
                "a\n<<<<<<< x\nk\n=======\nm\n>>>>>>> y\nb" "w.txt")
              (rs.map Prod.fst)).1.1
            err := (ConflictResolver.apply_resolution (fun _ => .syntaxErr 1 "bad")
              "w.txt" "a\n<<<<<<< x\nk\n=======\nm\n>>>>>>> y\nb"
              (ConflictParser.parse_content
                "a\n<<<<<<< x\nk\n=======\nm\n>>>>>>> y\nb" "w.txt")
              (rs.map Prod.fst)).1.2
            newContent := (ConflictResolver.apply_resolution (fun _ => .syntaxErr 1 "bad")
              "w.txt" "a\n<<<<<<< x\nk\n=======\nm\n>>>>>>> y\nb"
              (ConflictParser.parse_content
                "a\n<<<<<<< x\nk\n=======\nm\n>>>>>>> y\nb" "w.txt")
              (rs.map Prod.fst)).2
            allValid := rs.all Prod.snd }) ∧
    processOneFile
        { analyzerLlm := fun _ => .error "offline"
          mergerLlm := fun _ => .ok ""
          pyCompile := fun _ => .syntaxErr 1 "bad"
          gitAddOk := fun _ => true }
        ResolutionStrategy.both "w.txt" "a\n<<<<<<< x\nk\n=======\nm\n>>>>>>> y\nb"
      = { nConflicts := 1, success := true, err := none,
          newContent := "a\nm\nb", allValid := false } :=
  ⟨((C2_write_gated_by_final_validation (fun _ => .syntaxErr 1 "bad") "w.py" "x" [] []).2.2.1
      (by decide)).1,
    ((C2_write_gated_by_final_validation (fun _ => .syntaxErr 1 "bad") "w.py" "x" [] []).2.2.1
      (by decide)).2,
    (C2_write_gated_by_final_validation (fun _ => .syntaxErr 1 "bad") "w.txt"
      "a\n<<<<<<< x\nk\n=======\nm\n>>>>>>> y\nb"
      (ConflictParser.parse_content "a\n<<<<<<< x\nk\n=======\nm\n>>>>>>> y\nb" "w.txt")
      []).2.2.2
      { analyzerLlm := fun _ => .error "offline"
        mergerLlm := fun _ => .ok ""
        pyCompile := fun _ => .syntaxErr 1 "bad"
        gitAddOk := fun _ => true }
      ResolutionStrategy.both rfl (by decide),
    by decide⟩

/-- C6 (confirmed).  In every run of `resolve_conflicts` (with a real
strategy and distinct conflicted file names), a file is staged in the
repository index only if `apply_resolution` succeeded for it: every newly
staged path comes from a conflicted file whose per-file step succeeded,
whose `git add` succeeded, whose reconstructed content was written to the
working tree, and whose written content passes the whole-file validation.
Conversely, a file whose reconstruction or validation fails is not staged
(unless it was already staged before the run) and appears in the failure
list paired with its error. -/
theorem C6_staged_only_if_applied (env : Env) (s : String) (st : RepoState)
    (strat : ResolutionStrategy)
    (hs : strategyOfString (pyLower s) = some strat)
    (hni : strat ≠ ResolutionStrategy.interactive)
    (hnd : (st.files.map Prod.fst).Nodup) :
    (∀ fp, fp ∈ (resolve_conflicts env s st).2.staged →
      fp ∈ st.staged ∨
      ∃ content, (fp, content) ∈ st.files ∧
        (processOneFile env strat fp content).success = true ∧
        GitOperations.stage_file env fp = true ∧
        (fp, (processOneFile env strat fp content).newContent)
          ∈ (resolve_conflicts env s st).2.files ∧
        (SyntaxValidator.validate env.pyCompile fp
          ((processOneFile env strat fp content).newContent)).1 = true) ∧
    (∀ fp content, (fp, content) ∈ st.files →
      (processOneFile env strat fp content).success = false →
      (fp ∉ st.staged → fp ∉ (resolve_conflicts env s st).2.staged) ∧
      (fp, (processOneFile env strat fp content).err.getD "None")
        ∈ (resolve_conflicts env s st).1.failedFiles) := by
  by_cases hf : st.files = []
  · have hres : resolve_conflicts env s st
        = ({ status := "success", message := "✅ No conflicts to resolve",
             resolved := none, total := none, failedFiles := [] }, st) := by
      simp [resolve_conflicts, hs, hni, hf]
    rw [hres]
    refine ⟨fun fp hmem => Or.inl hmem, ?_⟩
    intro fp content hmemf
    rw [hf] at hmemf
    simp at hmemf
  · have hstaged : (resolve_conflicts env s st).2.staged
        = st.staged ++ (processFiles env strat st.files).newlyStaged := by
      simp [resolve_conflicts, hs, hni, hf]
    have hfiles2 : (resolve_conflicts env s st).2.files
        = (processFiles env strat st.files).outFiles := by
      simp [resolve_conflicts, hs, hni, hf]
    have hfailed : (resolve_conflicts env s st).1.failedFiles
        = (processFiles env strat st.files).failedFiles := by
      simp [resolve_conflicts, hs, hni, hf]
    obtain ⟨hspecS, hspecF, hspecO⟩ := processFiles_spec env strat st.files
    constructor
    · intro fp hmem
      rw [hstaged] at hmem
      rcases List.mem_append.mp hmem with hold | hnew
      · exact Or.inl hold
      · rw [hspecS] at hnew
        obtain ⟨p, hp, hcond⟩ := List.mem_filterMap.mp hnew
        by_cases hc : ((processOneFile env strat p.1 p.2).success
            && env.gitAddOk p.1) = true
        · rw [if_pos hc] at hcond
          obtain ⟨hsucc, hgit⟩ := Bool.and_eq_true .. |>.mp hc
          injection hcond with hfp
          subst hfp
          refine Or.inr ⟨p.2, by simpa using hp, hsucc, hgit, ?_,
            processOneFile_success_validate env strat hni p.1 p.2 hsucc⟩
          rw [hfiles2, hspecO]
          exact List.mem_map.mpr ⟨p, hp, rfl⟩
        · rw [if_neg hc] at hcond
          exact absurd hcond (by simp)
    · intro fp content hmemf hfail2
      constructor
      · intro hnold hmem
        rw [hstaged] at hmem
        rcases List.mem_append.mp hmem with hold | hnew
        · exact hnold hold
        · rw [hspecS] at hnew
          obtain ⟨p, hp, hcond⟩ := List.mem_filterMap.mp hnew
          by_cases hc : ((processOneFile env strat p.1 p.2).success
              && env.gitAddOk p.1) = true
          · rw [if_pos hc] at hcond
            obtain ⟨hsucc, _⟩ := Bool.and_eq_true .. |>.mp hc
            injection hcond with hfp
            subst hfp
            have hpc : p.2 = content := by
              exact nodup_keys_eq st.files hnd (by simpa using hp) hmemf
            rw [hpc] at hsucc
            rw [hfail2] at hsucc
            exact absurd hsucc (by decide)
          · rw [if_neg hc] at hcond
            exact absurd hcond (by simp)
      · rw [hfailed, hspecF]
        refine List.mem_filterMap.mpr ⟨(fp, content), hmemf, ?_⟩
        simp [hfail2]

/-- C6 witness: two conflicted files, the second's reconstruction addressed
to a compiler that rejects it; the first is staged, the second lands in the
failure list and stays unstaged. -/
theorem C6_staged_only_if_applied_witness :
    (∀ fp, fp ∈ (resolve_conflicts
        { analyzerLlm := fun _ => .error "offline"
          mergerLlm := fun _ => .error "offline"
          pyCompile := fun code => if code = "ok\nrest" then .ok else .syntaxErr 1 "bad"
          gitAddOk := fun _ => true }
        "current"
        { files := [("a.py", "<<<<<<< x\nok\n=======\nno\n>>>>>>> y\nrest"),
                    ("b.py", "<<<<<<< x\nbroken(\n=======\nno\n>>>>>>> y\nrest")],
          staged := [] }).2.staged →
      fp ∈ ([] : List String) ∨
      ∃ content, (fp, content)
          ∈ [("a.py", "<<<<<<< x\nok\n=======\nno\n>>>>>>> y\nrest"),
             ("b.py", "<<<<<<< x\nbroken(\n=======\nno\n>>>>>>> y\nrest")] ∧
        (processOneFile
          { analyzerLlm := fun _ => .error "offline"
            mergerLlm := fun _ => .error "offline"
            pyCompile := fun code => if code = "ok\nrest" then .ok else .syntaxErr 1 "bad"
            gitAddOk := fun _ => true }
          ResolutionStrategy.current fp content).success = true ∧
        GitOperations.stage_file
          { analyzerLlm := fun _ => .error "offline"
            mergerLlm := fun _ => .error "offline"
            pyCompile := fun code => if code = "ok\nrest" then .ok else .syntaxErr 1 "bad"
            gitAddOk := fun _ => true } fp = true ∧
        (fp, (processOneFile
          { analyzerLlm := fun _ => .error "offline"
            mergerLlm := fun _ => .error "offline"
            pyCompile := fun code => if code = "ok\nrest" then .ok else .syntaxErr 1 "bad"
            gitAddOk := fun _ => true }
          ResolutionStrategy.current fp content).newContent)
          ∈ (resolve_conflicts
            { analyzerLlm := fun _ => .error "offline"
              mergerLlm := fun _ => .error "offline"
              pyCompile := fun code => if code = "ok\nrest" then .ok else .syntaxErr 1 "bad"
              gitAddOk := fun _ => true }
            "current"
            { files := [("a.py", "<<<<<<< x\nok\n=======\nno\n>>>>>>> y\nrest"),
                        ("b.py", "<<<<<<< x\nbroken(\n=======\nno\n>>>>>>> y\nrest")],
              staged := [] }).2.files ∧
        (SyntaxValidator.validate
          (fun code => if code = "ok\nrest" then .ok else .syntaxErr 1 "bad") fp
          ((processOneFile
            { analyzerLlm := fun _ => .error "offline"
              mergerLlm := fun _ => .error "offline"
              pyCompile := fun code => if code = "ok\nrest" then .ok else .syntaxErr 1 "bad"
              gitAddOk := fun _ => true }
            ResolutionStrategy.current fp content).newContent)).1 = true) ∧
    (resolve_conflicts
        { analyzerLlm := fun _ => .error "offline"
          mergerLlm := fun _ => .error "offline"
          pyCompile := fun code => if code = "ok\nrest" then .ok else .syntaxErr 1 "bad"
          gitAddOk := fun _ => true }
        "current"
        { files := [("a.py", "<<<<<<< x\nok\n=======\nno\n>>>>>>> y\nrest"),
                    ("b.py", "<<<<<<< x\nbroken(\n=======\nno\n>>>>>>> y\nrest")],
          staged := [] }).2.staged = ["a.py"] ∧
    (resolve_conflicts
        { analyzerLlm := fun _ => .error "offline"
          mergerLlm := fun _ => .error "offline"
          pyCompile := fun code => if code = "ok\nrest" then .ok else .syntaxErr 1 "bad"
          gitAddOk := fun _ => true }
        "current"
        { files := [("a.py", "<<<<<<< x\nok\n=======\nno\n>>>>>>> y\nrest"),
                    ("b.py", "<<<<<<< x\nbroken(\n=======\nno\n>>>>>>> y\nrest")],
          staged := [] }).1.failedFiles
      = [("b.py", "Final validation failed: Line 1: bad")] :=
  ⟨(C6_staged_only_if_applied
      { analyzerLlm := fun _ => .error "offline"
        mergerLlm := fun _ => .error "offline"
        pyCompile := fun code => if code = "ok\nrest" then .ok else .syntaxErr 1 "bad"
        gitAddOk := fun _ => true }
      "current"
      { files := [("a.py", "<<<<<<< x\nok\n=======\nno\n>>>>>>> y\nrest"),
                  ("b.py", "<<<<<<< x\nbroken(\n=======\nno\n>>>>>>> y\nrest")],
        staged := [] }
      ResolutionStrategy.current (by decide) (by decide) (by decide)).1,
    by decide, by decide⟩

end Autogit

